import Mathlib

/-!
Shallow embedding of the behavioral bot-detection engine of the cybersec-forum
repository: keystroke capture buffers (the two KeystrokeProvider variants),
the keystroke pattern analyzer of the typing-checker page, the two
MouseTracker variants, the device-fingerprint risk scoring and hash, and the
trust-score fusion provider.  Timestamps and samples are rationals where the
code only adds, subtracts, compares and rounds; real numbers are used where
the code takes square roots.
-/

/-- JavaScript Math.round on a rational (round half toward positive infinity). -/
def jsRoundQ (q : ℚ) : ℤ := ⌊q + 1/2⌋

/-- JavaScript Math.round on a real (round half toward positive infinity). -/
noncomputable def jsRoundR (x : ℝ) : ℤ := ⌊x + 1/2⌋

/-- The last n elements of a list, in order (JS Array.slice(-n) for n ≥ 1). -/
def lastN (n : ℕ) (l : List α) : List α := l.drop (l.length - n)

namespace KS

/-- A JS Record<string, number[]> buffer map as an insertion-ordered
association list; samples are the (integer) values the code stores after
Math.round.  Lookup finds the unique matching key; a push appends to the
existing bucket, or creates a new bucket at the end. -/
abbrev Store := List (String × List ℤ)

def Store.get : Store → String → List ℤ
  | [], _ => []
  | (k', l) :: tl, k => if k' = k then l else Store.get tl k

/-- The addToArray push pattern: create the bucket if absent, append v. -/
def Store.push : Store → String → ℤ → Store
  | [], k, v => [(k, [v])]
  | (k', l) :: tl, k, v =>
    if k' = k then (k', l ++ [v]) :: tl else (k', l) :: Store.push tl k v

/-- The part_009 n-gram cap: after a push, if the bucket holds more than 50
samples, shift off the oldest one. -/
def Store.capBucket : Store → String → Store
  | [], _ => []
  | (k', l) :: tl, k =>
    if k' = k then (if l.length > 50 then (k', l.tail) :: tl else (k', l) :: tl)
    else (k', l) :: Store.capBucket tl k

/-- An association map String → ℚ (dwell-start timestamps). -/
abbrev AMap := List (String × ℚ)

def AMap.get? : AMap → String → Option ℚ
  | [], _ => none
  | (k', v) :: tl, k => if k' = k then some v else AMap.get? tl k

def AMap.set : AMap → String → ℚ → AMap
  | [], k, v => [(k, v)]
  | (k', v') :: tl, k, v =>
    if k' = k then (k', v) :: tl else (k', v') :: AMap.set tl k v

def AMap.del : AMap → String → AMap
  | [], _ => []
  | (k', v') :: tl, k =>
    if k' = k then AMap.del tl k else (k', v') :: AMap.del tl k

/-- Wrap a key symbol in angle brackets (part_009 wrap, part_003 normalize). -/
def wrap (s : String) : String := "<" ++ s ++ ">"

/-- The flight / n-gram key scheme: [lhs]->[rhs]. -/
def arrowKey (a b : String) : String := "[" ++ a ++ "]->[" ++ b ++ "]"

end KS

namespace KS9

open KS

/-! ## part_009: the capped KeystrokeProvider (onKeyDown / onKeyUp) -/
/-- Mutable refs of the part_009 provider. -/
structure St where
  dwell : Store
  flight : Store
  ngram : Store
  dwellStarts : AMap
  lastKeyupStamp : Option ℚ
  lastKeyupKey : Option String
  prevChars : List String
  prevStamp : Option ℚ

/-- The n-gram key for suffix length j of the rolling context. -/
def mkNgramKey (pc : List String) (key : String) (j : ℕ) : String :=
  arrowKey (String.join ((lastN j pc).map wrap)) (wrap key)

/-- The n-gram keys touched by one key-down, for j = 1 .. prevChars.length. -/
def ngramKeys (pc : List String) (key : String) : List String :=
  (List.range pc.length).map (fun i => mkNgramKey pc key (i + 1))

/-- addToArray followed by the 50-sample shift (the source's push-then-cap). -/
def pushCap (m : Store) (k : String) (v : ℤ) : Store := (m.push k v).capBucket k

def ngramPushes (ks : List String) (v : ℤ) (m : Store) : Store :=
  ks.foldl (fun acc k => pushCap acc k v) m

/-- Ghost variant with no cap, recording the full append history. -/
def ngramPushesU (ks : List String) (v : ℤ) (m : Store) : Store :=
  ks.foldl (fun acc k => acc.push k v) m

def onKeyDown (s : St) (key : String) (now : ℚ) : St :=
  let wrapped := wrap key
  let flight' :=
    match s.lastKeyupStamp, s.lastKeyupKey with
    | some ts, some pk => s.flight.push (arrowKey (wrap pk) wrapped) (jsRoundQ (now - ts))
    | _, _ => s.flight
  let ngram' :=
    match s.prevStamp with
    | some ps =>
      if s.prevChars.length > 0 then
        (if now - ps < 1000 ∧ now - ps ≤ 1500 then
          ngramPushes (ngramKeys s.prevChars key) (jsRoundQ (now - ps)) s.ngram
        else s.ngram)
      else s.ngram
    | none => s.ngram
  let pc := s.prevChars ++ [key]
  { s with
    flight := flight'
    ngram := ngram'
    dwellStarts := s.dwellStarts.set key now
    prevChars := if pc.length > 5 then pc.tail else pc
    prevStamp := some now }

def onKeyUp (s : St) (key : String) (now : ℚ) : St :=
  match s.dwellStarts.get? key with
  | some start =>
    { s with
      dwell := s.dwell.push (wrap key) (jsRoundQ (now - start))
      dwellStarts := s.dwellStarts.del key
      lastKeyupStamp := some now
      lastKeyupKey := some key }
  | none => { s with lastKeyupStamp := some now, lastKeyupKey := some key }

/-- Ghost key-down with no n-gram cap. -/
def onKeyDownU (s : St) (key : String) (now : ℚ) : St :=
  let wrapped := wrap key
  let flight' :=
    match s.lastKeyupStamp, s.lastKeyupKey with
    | some ts, some pk => s.flight.push (arrowKey (wrap pk) wrapped) (jsRoundQ (now - ts))
    | _, _ => s.flight
  let ngram' :=
    match s.prevStamp with
    | some ps =>
      if s.prevChars.length > 0 then
        (if now - ps < 1000 ∧ now - ps ≤ 1500 then
          ngramPushesU (ngramKeys s.prevChars key) (jsRoundQ (now - ps)) s.ngram
        else s.ngram)
      else s.ngram
    | none => s.ngram
  let pc := s.prevChars ++ [key]
  { s with
    flight := flight'
    ngram := ngram'
    dwellStarts := s.dwellStarts.set key now
    prevChars := if pc.length > 5 then pc.tail else pc
    prevStamp := some now }

inductive Ev where
  | down (key : String) (t : ℚ)
  | up (key : String) (t : ℚ)

def step (s : St) : Ev → St
  | .down k t => onKeyDown s k t
  | .up k t => onKeyUp s k t

def stepU (s : St) : Ev → St
  | .down k t => onKeyDownU s k t
  | .up k t => onKeyUp s k t

def init : St := ⟨[], [], [], [], none, none, [], none⟩

def run (evs : List Ev) : St := evs.foldl step init

def runU (evs : List Ev) : St := evs.foldl stepU init

/-- The capped and the ghost uncapped runs agree everywhere except the n-gram
map, where each capped bucket is the 50-sample suffix of the full history. -/
def CapRel (a b : St) : Prop :=
  a.dwell = b.dwell ∧ a.flight = b.flight ∧ a.dwellStarts = b.dwellStarts ∧
  a.lastKeyupStamp = b.lastKeyupStamp ∧ a.lastKeyupKey = b.lastKeyupKey ∧
  a.prevChars = b.prevChars ∧ a.prevStamp = b.prevStamp ∧
  ∀ k, a.ngram.get k = lastN 50 (b.ngram.get k)

/-- 51 down/up pairs of the key a, spaced 2000 ms apart. -/
def pairEvs (n : ℕ) : List Ev :=
  (List.range n).flatMap (fun i => [Ev.down "a" (2000 * i), Ev.up "a" (2000 * i)])

end KS9

namespace KS3

open KS KS9

/-! ## part_003: the uncapped KeystrokeProvider (handleKeyDown / handleKeyUp) -/
/-- The special-key normalization table of part_003. -/
def keyMap : List (String × String) :=
  [("Enter", "enter"), ("Backspace", "backspace"), (" ", "space"), ("Tab", "tab"),
   ("Escape", "escape"), ("ArrowLeft", "arrowleft"), ("ArrowRight", "arrowright"),
   ("ArrowUp", "arrowup"), ("ArrowDown", "arrowdown"), ("Home", "home"),
   ("End", "end"), ("PageUp", "pageup"), ("PageDown", "pagedown"),
   ("Delete", "delete"), ("Insert", "insert"), ("Shift", "shift"),
   ("Control", "ctrl"), ("Alt", "alt"), ("Meta", "meta")]

/-- normalizeKey: special-key table or lowercase, wrapped in angle brackets. -/
def normalizeKey (key : String) : String :=
  wrap ((keyMap.lookup key).getD key.toLower)

/-- The dwell-map key: the normalized key with the angle brackets stripped. -/
def stripAngle (s : String) : String := (s.drop 1).dropRight 1

/-- Mutable refs of the part_003 provider. -/
structure St where
  ngram : Store
  dwell : Store
  flight : Store
  prevCharsBuf : List String
  prevStamp : Option ℚ
  dwellStartTimes : AMap
  lastKeyUpStamp : Option ℚ
  lastKeyUpKey : Option String

/-- The n-gram key for suffix length j: the buffered keys are already
wrapped, so they are joined without re-wrapping. -/
def mkNgramKey (pc : List String) (key : String) (j : ℕ) : String :=
  arrowKey (String.join (lastN j pc)) key

/-- The n-gram keys touched by one key-down, j = 1 .. 5 gated by context length. -/
def ngramKeys (pc : List String) (key : String) : List String :=
  (List.range 5).filterMap (fun i =>
    if pc.length ≥ i + 1 then some (mkNgramKey pc key (i + 1)) else none)

def handleKeyDown (s : St) (rawKey : String) (now : ℚ) : St :=
  let key := normalizeKey rawKey
  let flight' :=
    match s.lastKeyUpStamp, s.lastKeyUpKey with
    | some ts, some pk => s.flight.push (arrowKey pk key) (jsRoundQ (now - ts))
    | _, _ => s.flight
  let ngram' :=
    match s.prevStamp with
    | some ps =>
      if s.prevCharsBuf.length > 0 then
        (if now - ps < 1000 ∧ now - ps ≤ 1500 then
          ngramPushesU (ngramKeys s.prevCharsBuf key) (jsRoundQ (now - ps)) s.ngram
        else s.ngram)
      else s.ngram
    | none => s.ngram
  let pc := s.prevCharsBuf ++ [key]
  { s with
    flight := flight'
    ngram := ngram'
    dwellStartTimes := s.dwellStartTimes.set key now
    prevCharsBuf := if pc.length > 5 then pc.tail else pc
    prevStamp := some now }

def handleKeyUp (s : St) (rawKey : String) (now : ℚ) : St :=
  let key := normalizeKey rawKey
  match s.dwellStartTimes.get? key with
  | some start =>
    { s with
      dwell := s.dwell.push (stripAngle key) (jsRoundQ (now - start))
      dwellStartTimes := s.dwellStartTimes.del key
      lastKeyUpStamp := some now
      lastKeyUpKey := some key }
  | none => { s with lastKeyUpStamp := some now, lastKeyUpKey := some key }

end KS3

namespace TypingPage

attribute [local instance] Classical.propDecidable

/-! ## typing-checker page: analyzeKeystrokePatterns -/
/-- The three buffer maps handed to the analyzer (getKeystrokeData output);
sample values are arbitrary reals here since the analyzer consumes any data. -/
structure KeystrokeData where
  dwell_times : List (String × List ℝ)
  flight_times : List (String × List ℝ)
  ngram_times : List (String × List ℝ)

/-- reduce((a,b) => a+b) / length. -/
noncomputable def sampleMean (l : List ℝ) : ℝ := l.sum / l.length

/-- reduce((acc,time) => acc + (time-avg)^2, 0) / length. -/
noncomputable def sampleSqDev (l : List ℝ) (avg : ℝ) : ℝ :=
  (l.map (fun x => (x - avg) ^ 2)).sum / l.length

/-- Math.sqrt of the population variance (the source stores this in the
fields named dwellVariance / flightVariance). -/
noncomputable def stdDevOf (l : List ℝ) : ℝ := Real.sqrt (sampleSqDev l (sampleMean l))

/-- new Set(l).size. -/
noncomputable def uniqueCount (l : List ℝ) : ℕ := l.dedup.length

/-- Math.max(...l) for the nonempty lists the source applies it to. -/
def listMax : List ℝ → ℝ
  | [] => 0
  | h :: t => t.foldl max h

/-- Math.min(...l) for the nonempty lists the source applies it to. -/
def listMin : List ℝ → ℝ
  | [] => 0
  | h :: t => t.foldl min h

structure KMetrics where
  avgDwellTime : ℝ
  dwellVariance : ℝ
  avgFlightTime : ℝ
  flightVariance : ℝ
  ngramCount : ℕ
  totalKeystrokes : ℕ
  uniqueDwellTimes : ℕ
  dwellTimeRange : ℝ
  flightTimeRange : ℝ

structure KAnalysis where
  botScore : ℝ
  confidence : ℝ
  flags : List String
  metrics : KMetrics

/-- The per-bucket standard deviations of the n-gram map (0 for buckets with
fewer than 2 samples). -/
noncomputable def ngramVariancesOf (data : KeystrokeData) : List ℝ :=
  data.ngram_times.map (fun p => if p.2.length < 2 then 0 else stdDevOf p.2)

/-- Their average, or 0 when there are no buckets. -/
noncomputable def avgNgramVarianceOf (data : KeystrokeData) : ℝ :=
  if (ngramVariancesOf data).length > 0 then sampleMean (ngramVariancesOf data) else 0

/-- analyzeKeystrokePatterns of the typing-checker page, rule for rule. -/
noncomputable def analyzeKeystrokePatterns (data : KeystrokeData) : KAnalysis :=
  let allDwellTimes := (data.dwell_times.map Prod.snd).flatten
  let m0 : KMetrics := ⟨0, 0, 0, 0, 0, 0, 0, 0, 0⟩
  let m1 :=
    if allDwellTimes.length > 0 then
      { m0 with
        totalKeystrokes := allDwellTimes.length
        avgDwellTime := sampleMean allDwellTimes
        uniqueDwellTimes := uniqueCount allDwellTimes
        dwellTimeRange := listMax allDwellTimes - listMin allDwellTimes
        dwellVariance := stdDevOf allDwellTimes }
    else m0
  let allFlightTimes := (data.flight_times.map Prod.snd).flatten
  let m2 :=
    if allFlightTimes.length > 0 then
      { m1 with
        avgFlightTime := sampleMean allFlightTimes
        flightTimeRange := listMax allFlightTimes - listMin allFlightTimes
        flightVariance := stdDevOf allFlightTimes }
    else m1
  let m := { m2 with ngramCount := data.ngram_times.length }
  let dwellVariationRatio : ℝ := (m.uniqueDwellTimes : ℝ) / (m.totalKeystrokes : ℝ)
  let avgNgramVariance : ℝ := avgNgramVarianceOf data
  let base : ℝ :=
    (if m.dwellVariance < 15 ∧ allDwellTimes.length > 10 then (25 : ℝ) else 0) +
    (if m.avgFlightTime < 80 ∧ allFlightTimes.length > 5 then 20 else 0) +
    (if m.flightVariance < 20 ∧ allFlightTimes.length > 5 then 20 else 0) +
    (if dwellVariationRatio < 0.3 ∧ m.totalKeystrokes > 15 then 15 else 0) +
    (if m.dwellTimeRange < 50 ∧ m.totalKeystrokes > 10 then 10 else 0) +
    (if avgNgramVariance < 25 ∧ m.ngramCount > 3 then 15 else 0)
  let adjusted : ℝ :=
    if m.dwellVariance > 30 ∧ m.flightVariance > 40 then max 0 (base - 10) else base
  let flags : List String :=
    (if m.dwellVariance < 15 ∧ allDwellTimes.length > 10
     then ["Extremely consistent dwell times"] else []) ++
    (if m.avgFlightTime < 80 ∧ allFlightTimes.length > 5
     then ["Unrealistically fast typing"] else []) ++
    (if m.flightVariance < 20 ∧ allFlightTimes.length > 5
     then ["Highly consistent flight times"] else []) ++
    (if dwellVariationRatio < 0.3 ∧ m.totalKeystrokes > 15
     then ["Limited dwell time variation"] else []) ++
    (if m.dwellTimeRange < 50 ∧ m.totalKeystrokes > 10
     then ["Narrow dwell time range"] else []) ++
    (if avgNgramVariance < 25 ∧ m.ngramCount > 3
     then ["Highly consistent n-gram timing"] else []) ++
    (if m.dwellVariance > 30 ∧ m.flightVariance > 40
     then ["Good variation in timing (human-like)"] else [])
  { botScore := min adjusted 100
    confidence := min ((allDwellTimes.length + allFlightTimes.length : ℝ) * 2) 100
    flags := flags
    metrics := m }

/-- The additive rule table exactly as the spec states it (section 4.1),
phrased directly over the flattened sample lists. -/
noncomputable def specKeystrokeBotScore (data : KeystrokeData) : ℝ :=
  let dwell := (data.dwell_times.map Prod.snd).flatten
  let flight := (data.flight_times.map Prod.snd).flatten
  let bucketStdDevs := data.ngram_times.map (fun p => stdDevOf p.2)
  let avgBucketStdDev :=
    if bucketStdDevs.length > 0 then sampleMean bucketStdDevs else 0
  let base :=
    (if stdDevOf dwell < 15 ∧ dwell.length > 10 then (25 : ℝ) else 0) +
    (if sampleMean flight < 80 ∧ flight.length > 5 then 20 else 0) +
    (if stdDevOf flight < 20 ∧ flight.length > 5 then 20 else 0) +
    (if (uniqueCount dwell : ℝ) / (dwell.length : ℝ) < 0.3 ∧ dwell.length > 15
     then 15 else 0) +
    (if listMax dwell - listMin dwell < 50 ∧ dwell.length > 10 then 10 else 0) +
    (if avgBucketStdDev < 25 ∧ data.ngram_times.length > 3 then 15 else 0)
  let adjusted :=
    if stdDevOf dwell > 30 ∧ stdDevOf flight > 40 then max 0 (base - 10) else base
  min adjusted 100

/-- The seven flag strings of the rule table, in rule order. -/
noncomputable def specKeystrokeFlags (data : KeystrokeData) : List String :=
  let dwell := (data.dwell_times.map Prod.snd).flatten
  let flight := (data.flight_times.map Prod.snd).flatten
  let bucketStdDevs := data.ngram_times.map (fun p => stdDevOf p.2)
  let avgBucketStdDev :=
    if bucketStdDevs.length > 0 then sampleMean bucketStdDevs else 0
  (if stdDevOf dwell < 15 ∧ dwell.length > 10
   then ["Extremely consistent dwell times"] else []) ++
  (if sampleMean flight < 80 ∧ flight.length > 5
   then ["Unrealistically fast typing"] else []) ++
  (if stdDevOf flight < 20 ∧ flight.length > 5
   then ["Highly consistent flight times"] else []) ++
  (if (uniqueCount dwell : ℝ) / (dwell.length : ℝ) < 0.3 ∧ dwell.length > 15
   then ["Limited dwell time variation"] else []) ++
  (if listMax dwell - listMin dwell < 50 ∧ dwell.length > 10
   then ["Narrow dwell time range"] else []) ++
  (if avgBucketStdDev < 25 ∧ data.ngram_times.length > 3
   then ["Highly consistent n-gram timing"] else []) ++
  (if stdDevOf dwell > 30 ∧ stdDevOf flight > 40
   then ["Good variation in timing (human-like)"] else [])

end TypingPage

namespace Ptr

open TypingPage

attribute [local instance] Classical.propDecidable

/-! ## part_008: the two MouseTracker variants -/
structure Point where
  x : ℝ
  y : ℝ
  timestamp : ℝ

structure ClickEvent where
  x : ℝ
  y : ℝ
  timestamp : ℝ
  button : ℤ

inductive Mode where
  | movement
  | clicks
  | combined
deriving DecidableEq

/-- Math.sqrt(dx*dx + dy*dy) between two samples. -/
noncomputable def pointDist (p q : Point) : ℝ :=
  Real.sqrt ((q.x - p.x) ^ 2 + (q.y - p.y) ^ 2)

/-- Consecutive pairs of a sample list. -/
def pairsOf (l : List α) : List (α × α) := l.zip l.tail

/-- Cumulative polyline length over consecutive pairs. -/
noncomputable def pathLength (l : List Point) : ℝ :=
  ((pairsOf l).map (fun pq => pointDist pq.1 pq.2)).sum

/-- The 9-point window starting at index i (slice(i, i + 9)). -/
def window (pts : List Point) (i : ℕ) : List Point := (pts.drop i).take 9

noncomputable def windowExpected (pts : List Point) (i : ℕ) : ℝ :=
  pointDist ((window pts i).head?.getD ⟨0, 0, 0⟩)
    ((window pts i).getLast?.getD ⟨0, 0, 0⟩)

noncomputable def windowActual (pts : List Point) (i : ℕ) : ℝ :=
  pathLength (window pts i)

/-- calculateStraightness (identical in both tracker variants): the fraction
of 9-point windows with chord at least 10px whose chord/path ratio
exceeds 0.95. -/
noncomputable def calculateStraightness (mousePoints : List Point) : ℝ :=
  if mousePoints.length < 10 then 0
  else
    let idxs := List.range (mousePoints.length - 8)
    let totalSegments := idxs.countP
      (fun i => decide (¬ windowExpected mousePoints i < 10))
    let straightSegments := idxs.countP
      (fun i => decide (¬ windowExpected mousePoints i < 10 ∧
        windowExpected mousePoints i / windowActual mousePoints i > 0.95))
    if totalSegments > 0 then (straightSegments : ℝ) / (totalSegments : ℝ) else 0

/-- Instantaneous velocities of the basic variant (dt > 8). -/
noncomputable def velocitiesB (pts : List Point) : List ℝ :=
  (pairsOf pts).filterMap (fun pq =>
    if pq.2.timestamp - pq.1.timestamp > 8
    then some (pointDist pq.1 pq.2 / (pq.2.timestamp - pq.1.timestamp))
    else none)

/-- Instantaneous velocities of the enhanced variant (8 < dt < 1000). -/
noncomputable def velocitiesE (pts : List Point) : List ℝ :=
  (pairsOf pts).filterMap (fun pq =>
    if pq.2.timestamp - pq.1.timestamp > 8 ∧ pq.2.timestamp - pq.1.timestamp < 1000
    then some (pointDist pq.1 pq.2 / (pq.2.timestamp - pq.1.timestamp))
    else none)

/-- max(0, 1 − min(1, CV/0.5)) over a velocity list. -/
noncomputable def consistencyScore (velocities : List ℝ) : ℝ :=
  let mean := sampleMean velocities
  let stdDev := stdDevOf velocities
  let coefficientOfVariation := if mean > 0 then stdDev / mean else 0
  max 0 (1 - min 1 (coefficientOfVariation / 0.5))

noncomputable def calculateVelocityConsistencyB (pts : List Point) : ℝ :=
  if pts.length < 10 then 0
  else if (velocitiesB pts).length < 5 then 0
  else consistencyScore (velocitiesB pts)

noncomputable def calculateVelocityConsistencyE (pts : List Point) : ℝ :=
  if pts.length < 10 then 0
  else if (velocitiesE pts).length < 5 then 0
  else consistencyScore (velocitiesE pts)

/-- The filtered inter-click intervals (50 < interval < 10000). -/
noncomputable def clickIntervals (clicks : List ClickEvent) : List ℝ :=
  (pairsOf clicks).filterMap (fun cc =>
    let interval := cc.2.timestamp - cc.1.timestamp
    if interval > 50 ∧ interval < 10000 then some interval else none)

/-- Math.round(interval / 50) * 50. -/
noncomputable def roundedBucket (interval : ℝ) : ℤ := jsRoundR (interval / 50) * 50

/-- calculateClickPattern (identical in both tracker variants). -/
noncomputable def calculateClickPattern (clickEvents : List ClickEvent) : ℝ :=
  if clickEvents.length < 5 then 0
  else
    let intervals := clickIntervals clickEvents
    if intervals.length < 3 then 0
    else
      let mean := sampleMean intervals
      let stdDev := stdDevOf intervals
      let coefficientOfVariation := if mean > 0 then stdDev / mean else 0
      let reg1 : ℝ := if coefficientOfVariation < 0.15 then 0.6 else 0
      let rounded := intervals.map roundedBucket
      let maxRepeats := (rounded.map (fun r => rounded.count r)).foldl max 0
      let reg2 : ℝ :=
        if (maxRepeats : ℝ) ≥ (intervals.length : ℝ) * 0.4 then 0.4 else 0
      min 1 (reg1 + reg2)

inductive Severity where
  | low
  | medium
  | high
  | critical
deriving DecidableEq

structure TeleportationEvent where
  fromPoint : Point
  toPoint : Point
  distance : ℝ
  timeDelta : ℝ
  severity : Severity

/-- The per-pair severity classifier of detectTeleportation, including the
skip of pairs more than 1000 ms apart. -/
noncomputable def classifyPair (p q : Point) : Option Severity :=
  let distance := pointDist p q
  let timeDelta := q.timestamp - p.timestamp
  if timeDelta > 1000 then none
  else if distance > 500 ∧ timeDelta < 50 then some .critical
  else if distance > 400 ∧ timeDelta < 50 then some .high
  else if distance > 150 ∧ timeDelta < 16 then some .medium
  else if distance > 150 ∧ timeDelta < 50 then some .low
  else none

noncomputable def teleportEvents (pts : List Point) : List TeleportationEvent :=
  (pairsOf pts).filterMap (fun pq =>
    (classifyPair pq.1 pq.2).map (fun sev =>
      ⟨pq.1, pq.2, pointDist pq.1 pq.2, pq.2.timestamp - pq.1.timestamp, sev⟩))

/-- The number of critical jumps among the retained events. -/
noncomputable def criticalCount (mousePoints : List Point) : ℕ :=
  (teleportEvents mousePoints).countP (fun e => e.severity == Severity.critical)

/-- The suspicious-jump ratio over all consecutive pairs. -/
noncomputable def suspiciousRatio (mousePoints : List Point) : ℝ :=
  if mousePoints.length - 1 > 0
  then ((teleportEvents mousePoints).length : ℝ) / ((mousePoints.length - 1 : ℕ) : ℝ)
  else 0

/-- The teleportation score: base ratio, critical-jump penalty floor, and the
0.3 / 0.5 ratio boosts. -/
noncomputable def teleportScore (mousePoints : List Point) : ℝ :=
  let criticalPenalty :=
    if criticalCount mousePoints > 0
    then min 1 ((criticalCount mousePoints : ℝ) * 0.3) else 0
  let s1 := max (suspiciousRatio mousePoints) criticalPenalty
  let s2 := if suspiciousRatio mousePoints > 0.3 then min 1 (s1 * 1.5) else s1
  if suspiciousRatio mousePoints > 0.5 then min 1 (s2 * 2) else s2

/-- detectTeleportation: the suspicious-jump score with the critical-jump
penalty floor and the 0.3 / 0.5 ratio boosts, plus the retained events. -/
noncomputable def detectTeleportation (mousePoints : List Point) :
    ℝ × List TeleportationEvent :=
  if mousePoints.length < 2 then (0, [])
  else (teleportScore mousePoints, teleportEvents mousePoints)

/-- calculateMovementDensity of the enhanced variant. -/
noncomputable def calculateMovementDensity (mousePoints : List Point) : ℝ :=
  if mousePoints.length < 5 then 0
  else
    let totalDistance := pathLength mousePoints
    if totalDistance = 0 then 1
    else
      let pointsPerPixel := ((mousePoints.length : ℝ) - 1) / totalDistance
      if pointsPerPixel < 0.1 then min 1 ((0.1 - pointsPerPixel) / 0.1) else 0

/-- The mode-weighted raw score of the basic tracker. -/
noncomputable def rawScoreB (mode : Mode)
    (straightness velocityConsistency clickPattern : ℝ) : ℝ :=
  match mode with
  | .movement => straightness * 0.7 + velocityConsistency * 0.3
  | .clicks => clickPattern
  | .combined =>
    straightness * 0.4 + velocityConsistency * 0.3 + clickPattern * 0.3

/-- The single-high-metric multiplier (applies min(1, x*1.3) when any of
straightness > 0.8, velocity consistency > 0.9, click pattern > 0.7 holds). -/
noncomputable def metricBoost
    (straightness velocityConsistency clickPattern x : ℝ) : ℝ :=
  if straightness > 0.8 ∨ velocityConsistency > 0.9 ∨ clickPattern > 0.7
  then min 1 (x * 1.3) else x

/-- calculateBotScore of the basic tracker. -/
noncomputable def calculateBotScoreB (mode : Mode)
    (straightness velocityConsistency clickPattern : ℝ) : ℤ :=
  jsRoundR (metricBoost straightness velocityConsistency clickPattern
    (rawScoreB mode straightness velocityConsistency clickPattern) * 100)

/-- The mode-weighted raw score of the enhanced tracker (movement-mode
weights 0.4 / 0.2 / 0.4 / 0.2). -/
noncomputable def rawScoreE (mode : Mode)
    (straightness velocityConsistency clickPattern teleportation movementDensity : ℝ) :
    ℝ :=
  match mode with
  | .movement =>
    straightness * 0.4 + velocityConsistency * 0.2 +
      teleportation * 0.4 + movementDensity * 0.2
  | .clicks => clickPattern
  | .combined =>
    straightness * 0.25 + velocityConsistency * 0.15 + clickPattern * 0.2 +
      teleportation * 0.4 + movementDensity * 0.2

noncomputable def telBoost1 (teleportation x : ℝ) : ℝ :=
  if teleportation > 0.3 then min 1 (x * 1.5) else x

noncomputable def telBoost2 (teleportation x : ℝ) : ℝ :=
  if teleportation > 0.6 then min 1 (x * 1.8) else x

noncomputable def densBoost (movementDensity x : ℝ) : ℝ :=
  if movementDensity > 0.5 then min 1 (x * 1.4) else x

noncomputable def comboBoost (teleportation movementDensity x : ℝ) : ℝ :=
  if teleportation > 0.4 ∧ movementDensity > 0.4 then min 1 (x * 2) else x

/-- The multiplier pipeline applied to the enhanced raw score, in source
order. -/
noncomputable def boostedE (mode : Mode)
    (straightness velocityConsistency clickPattern teleportation movementDensity : ℝ) :
    ℝ :=
  metricBoost straightness velocityConsistency clickPattern
    (comboBoost teleportation movementDensity
      (densBoost movementDensity
        (telBoost2 teleportation
          (telBoost1 teleportation
            (rawScoreE mode straightness velocityConsistency clickPattern
              teleportation movementDensity)))))

/-- calculateBotScore of the enhanced tracker, with the teleportation and
density weights (0.4 / 0.2) and the compounding multipliers. -/
noncomputable def calculateBotScoreE (mode : Mode)
    (straightness velocityConsistency clickPattern teleportation movementDensity : ℝ) :
    ℤ :=
  jsRoundR (boostedE mode straightness velocityConsistency clickPattern
    teleportation movementDensity * 100)

structure MetricsB where
  straightness : ℝ
  velocityConsistency : ℝ
  clickPattern : ℝ

structure StateB where
  points : List Point
  clicks : List ClickEvent
  detectionMode : Mode
  botScore : ℤ
  metrics : MetricsB

/-- analyzeAndUpdateScore of the basic tracker: the early return on
insufficient data leaves the published state untouched. -/
noncomputable def analyzeAndUpdateScoreB (st : StateB) : StateB :=
  if st.detectionMode = .movement ∧ st.points.length < 15 then st
  else if st.detectionMode = .clicks ∧ st.clicks.length < 5 then st
  else if st.detectionMode = .combined ∧
      (st.points.length < 10 ∨ st.clicks.length < 3) then st
  else
    let straightness :=
      if st.detectionMode ≠ .clicks then calculateStraightness st.points else 0
    let velocityConsistency :=
      if st.detectionMode ≠ .clicks then calculateVelocityConsistencyB st.points else 0
    let clickPattern :=
      if st.detectionMode ≠ .movement then calculateClickPattern st.clicks else 0
    { st with
      metrics := ⟨straightness, velocityConsistency, clickPattern⟩
      botScore := calculateBotScoreB st.detectionMode straightness
        velocityConsistency clickPattern }

structure MetricsE where
  straightness : ℝ
  velocityConsistency : ℝ
  clickPattern : ℝ
  teleportation : ℝ
  movementDensity : ℝ

structure StateE where
  points : List Point
  clicks : List ClickEvent
  detectionMode : Mode
  botScore : ℤ
  metrics : MetricsE
  teleportationEvents : List TeleportationEvent

/-- analyzeAndUpdateScore of the enhanced tracker (movement minimum 5). -/
noncomputable def analyzeAndUpdateScoreE (st : StateE) : StateE :=
  if st.detectionMode = .movement ∧ st.points.length < 5 then st
  else if st.detectionMode = .clicks ∧ st.clicks.length < 5 then st
  else if st.detectionMode = .combined ∧
      (st.points.length < 10 ∨ st.clicks.length < 3) then st
  else
    let straightness :=
      if st.detectionMode ≠ .clicks then calculateStraightness st.points else 0
    let velocityConsistency :=
      if st.detectionMode ≠ .clicks then calculateVelocityConsistencyE st.points else 0
    let clickPattern :=
      if st.detectionMode ≠ .movement then calculateClickPattern st.clicks else 0
    let teleportationResult :=
      if st.detectionMode ≠ .clicks then detectTeleportation st.points else (0, [])
    let movementDensity :=
      if st.detectionMode ≠ .clicks then calculateMovementDensity st.points else 0
    { st with
      metrics := ⟨straightness, velocityConsistency, clickPattern,
        teleportationResult.1, movementDensity⟩
      botScore := calculateBotScoreE st.detectionMode straightness
        velocityConsistency clickPattern teleportationResult.1 movementDensity
      teleportationEvents := teleportationResult.2 }

end Ptr

namespace Device

/-! ## DeviceFingerprintProvider.tsx -/
/-! ### Device fingerprint provider (DeviceFingerprintProvider.tsx)

The ten fingerprint sections, `calculateRiskScore`, and
`generateFingerprintHash`.  JS numbers are modelled as `ℚ`; absent
optional properties (`deviceMemory?`, `baseLatency?`, ...) are `Option`
values serialised like JS `undefined` (the property is skipped), and
`doNotTrack : string | null` serialises `none` as JSON `null`. -/
structure BasicInfo where
  userAgent : String
  platform : String
  vendor : String
  language : String
  languages : List String
  cookieEnabled : Bool
  doNotTrack : Option String
  hardwareConcurrency : ℚ
  deviceMemory : Option ℚ
  maxTouchPoints : ℚ
  appVersion : String
  buildID : Option String

structure ScreenInfo where
  screenWidth : ℚ
  screenHeight : ℚ
  availWidth : ℚ
  availHeight : ℚ
  colorDepth : ℚ
  pixelDepth : ℚ
  devicePixelRatio : ℚ
  windowWidth : ℚ
  windowHeight : ℚ
  orientation : Option String

structure GraphicsInfo where
  webglVendor : String
  webglRenderer : String
  webglVersion : String
  webglExtensions : List String
  canvasFingerprint : String
  webglFingerprint : String
  supportedFormats : List String

structure AudioInfo where
  audioFingerprint : String
  sampleRate : ℚ
  maxChannelCount : ℚ
  numberOfInputs : ℚ
  numberOfOutputs : ℚ
  baseLatency : Option ℚ

structure FontInfo where
  availableFonts : List String
  fontFingerprint : String
  fontCount : ℚ

structure NetworkInfo where
  effectiveType : Option String
  downlink : Option ℚ
  rtt : Option ℚ
  online : Bool
  ipAddress : Option String

structure SensorInfo where
  batteryLevel : Option ℚ
  batteryCharging : Option Bool
  motionSupported : Bool
  orientationSupported : Bool
  vibrationSupported : Bool

structure TimezoneInfo where
  timezone : String
  timezoneOffset : ℚ
  locale : String
  dateFormat : String

structure PerformanceInfo where
  performanceNowPrecision : ℚ
  memoryUsed : Option ℚ
  memoryTotal : Option ℚ
  cpuClass : Option String

structure PrivacyInfo where
  adBlockDetected : Bool
  privateBrowsing : Bool
  webrtcLeakDetected : Bool
  pluginsHidden : Bool

/-- `Omit<DeviceFingerprint, 'hash' | 'riskScore' | 'riskFactors'>`: the
`partialFingerprint` object, fields in its literal order. -/
structure PartialFingerprint where
  basic : BasicInfo
  screen : ScreenInfo
  graphics : GraphicsInfo
  audio : AudioInfo
  fonts : FontInfo
  network : NetworkInfo
  sensors : SensorInfo
  timezone : TimezoneInfo
  performance : PerformanceInfo
  privacy : PrivacyInfo

def startsList : List Char → List Char → Bool
  | _, [] => true
  | [], _ :: _ => false
  | a :: as, b :: bs => a = b && startsList as bs

def containsSub : List Char → List Char → Bool
  | [], needle => needle.isEmpty
  | a :: as, needle => startsList (a :: as) needle || containsSub as needle

/-- `String.prototype.includes`: substring containment. -/
def includes (hay needle : String) : Bool :=
  containsSub hay.toList needle.toList

/-- calculateRiskScore: the nine additive anomaly rules in source order,
capped by `Math.min(score, 100)`. -/
def calculateRiskScore (fingerprint : PartialFingerprint) : ℕ × List String :=
  let s0 : ℕ := 0
  let f0 : List String := []
  let s1 := if includes fingerprint.basic.userAgent "HeadlessChrome" then s0 + 40 else s0
  let f1 := if includes fingerprint.basic.userAgent "HeadlessChrome"
            then f0 ++ ["Headless browser detected"] else f0
  let s2 := if includes fingerprint.basic.userAgent "PhantomJS" then s1 + 40 else s1
  let f2 := if includes fingerprint.basic.userAgent "PhantomJS"
            then f1 ++ ["PhantomJS detected"] else f1
  let s3 := if fingerprint.basic.hardwareConcurrency > 16 then s2 + 15 else s2
  let f3 := if fingerprint.basic.hardwareConcurrency > 16
            then f2 ++ ["Unusual CPU core count"] else f2
  let s4 := if fingerprint.graphics.webglVendor = "" ∨
               fingerprint.graphics.webglVendor = "unknown" then s3 + 20 else s3
  let f4 := if fingerprint.graphics.webglVendor = "" ∨
               fingerprint.graphics.webglVendor = "unknown"
            then f3 ++ ["WebGL not available"] else f3
  let s5 := if fingerprint.privacy.adBlockDetected then s4 + 5 else s4
  let f5 := if fingerprint.privacy.adBlockDetected
            then f4 ++ ["Ad blocker detected"] else f4
  let s6 := if fingerprint.privacy.privateBrowsing then s5 + 10 else s5
  let f6 := if fingerprint.privacy.privateBrowsing
            then f5 ++ ["Private browsing mode"] else f5
  let s7 := if fingerprint.screen.screenWidth = 1024 ∧
               fingerprint.screen.screenHeight = 768 then s6 + 10 else s6
  let f7 := if fingerprint.screen.screenWidth = 1024 ∧
               fingerprint.screen.screenHeight = 768
            then f6 ++ ["Common automation screen size"] else f6
  let s8 := if fingerprint.fonts.fontCount < 10 then s7 + 15 else s7
  let f8 := if fingerprint.fonts.fontCount < 10
            then f7 ++ ["Limited font selection"] else f7
  let s9 := if fingerprint.performance.performanceNowPrecision > 3 then s8 + 10 else s8
  let f9 := if fingerprint.performance.performanceNowPrecision > 3
            then f8 ++ ["High-precision timing"] else f8
  (min s9 100, f9)

/-! ### JSON.stringify with an array replacer (ECMA-262 SerializeJSONObject)

With a replacer array, the PropertyList — here `Object.keys(data).sort()`,
the sorted top-level section names — selects and orders the serialised
keys of EVERY object, at every nesting level. -/
inductive Json where
  | str (s : String)
  | num (q : ℚ)
  | bool (b : Bool)
  | null
  | undefined
  | arr (elems : List Json)
  | obj (fields : List (String × Json))

def hexDigit (n : ℕ) : Char := "0123456789abcdef".toList.getD n '0'

/-- QuoteJSONString escaping of a single character. -/
def escapeChar (c : Char) : String :=
  if c = '"' then "\\\""
  else if c = '\\' then "\\\\"
  else if c = Char.ofNat 8 then "\\b"
  else if c = Char.ofNat 9 then "\\t"
  else if c = Char.ofNat 10 then "\\n"
  else if c = Char.ofNat 12 then "\\f"
  else if c = Char.ofNat 13 then "\\r"
  else if c.toNat < 32 then
    "\\u00" ++ String.mk [hexDigit (c.toNat / 16), hexDigit (c.toNat % 16)]
  else String.singleton c

def jsonQuote (s : String) : String :=
  "\"" ++ String.join (s.data.map escapeChar) ++ "\""

def joinComma : List String → String
  | [] => ""
  | [x] => x
  | x :: y :: tl => x ++ "," ++ joinComma (y :: tl)

/-- JS number formatting.  Every numeric fingerprint field sits below the
top level under a key the replacer filters out, so this is never reached
by `generateFingerprintHash`; decimal `toString` stands in for the JS
double-to-string algorithm. -/
def jsonNum (q : ℚ) : String := toString q

def lookupField : List (String × Json) → String → Option Json
  | [], _ => none
  | (k, v) :: tl, key => if k = key then some v else lookupField tl key

/-- SerializeJSONProperty with a PropertyList.  Objects emit exactly the
PropertyList keys they carry, in PropertyList order, skipping
`undefined` values; the fuel bounds the nesting depth (the fingerprint
is 3 levels deep, fuel 4 is never exhausted). -/
def serialize (allowed : List String) : ℕ → Json → String
  | 0, _ => ""
  | _ + 1, .str s => jsonQuote s
  | _ + 1, .num q => jsonNum q
  | _ + 1, .bool b => if b then "true" else "false"
  | _ + 1, .null => "null"
  | _ + 1, .undefined => ""
  | fuel + 1, .arr l =>
    "[" ++ joinComma (l.map (fun v => serialize allowed fuel v)) ++ "]"
  | fuel + 1, .obj kvs =>
    "\x7b" ++ joinComma (allowed.filterMap (fun k =>
      match lookupField kvs k with
      | some .undefined => none
      | some v => some (jsonQuote k ++ ":" ++ serialize allowed fuel v)
      | none => none)) ++ "\x7d"

def onum : Option ℚ → Json
  | some q => .num q
  | none => .undefined

def ostr : Option String → Json
  | some s => .str s
  | none => .undefined

def obool : Option Bool → Json
  | some b => .bool b
  | none => .undefined

/-- `string | null` fields: `null` is serialised (unlike `undefined`). -/
def onull : Option String → Json
  | some s => .str s
  | none => .null

def strArr (l : List String) : Json := .arr (l.map .str)

def basicJson (b : BasicInfo) : Json := .obj
  [("userAgent", .str b.userAgent), ("platform", .str b.platform),
   ("vendor", .str b.vendor), ("language", .str b.language),
   ("languages", strArr b.languages), ("cookieEnabled", .bool b.cookieEnabled),
   ("doNotTrack", onull b.doNotTrack),
   ("hardwareConcurrency", .num b.hardwareConcurrency),
   ("deviceMemory", onum b.deviceMemory),
   ("maxTouchPoints", .num b.maxTouchPoints),
   ("appVersion", .str b.appVersion), ("buildID", ostr b.buildID)]

def screenJson (s : ScreenInfo) : Json := .obj
  [("screenWidth", .num s.screenWidth), ("screenHeight", .num s.screenHeight),
   ("availWidth", .num s.availWidth), ("availHeight", .num s.availHeight),
   ("colorDepth", .num s.colorDepth), ("pixelDepth", .num s.pixelDepth),
   ("devicePixelRatio", .num s.devicePixelRatio),
   ("windowWidth", .num s.windowWidth), ("windowHeight", .num s.windowHeight),
   ("orientation", ostr s.orientation)]

def graphicsJson (g : GraphicsInfo) : Json := .obj
  [("webglVendor", .str g.webglVendor), ("webglRenderer", .str g.webglRenderer),
   ("webglVersion", .str g.webglVersion),
   ("webglExtensions", strArr g.webglExtensions),
   ("canvasFingerprint", .str g.canvasFingerprint),
   ("webglFingerprint", .str g.webglFingerprint),
   ("supportedFormats", strArr g.supportedFormats)]

def audioJson (a : AudioInfo) : Json := .obj
  [("audioFingerprint", .str a.audioFingerprint),
   ("sampleRate", .num a.sampleRate),
   ("maxChannelCount", .num a.maxChannelCount),
   ("numberOfInputs", .num a.numberOfInputs),
   ("numberOfOutputs", .num a.numberOfOutputs),
   ("baseLatency", onum a.baseLatency)]

def fontJson (f : FontInfo) : Json := .obj
  [("availableFonts", strArr f.availableFonts),
   ("fontFingerprint", .str f.fontFingerprint),
   ("fontCount", .num f.fontCount)]

def networkJson (n : NetworkInfo) : Json := .obj
  [("effectiveType", ostr n.effectiveType), ("downlink", onum n.downlink),
   ("rtt", onum n.rtt), ("online", .bool n.online),
   ("ipAddress", ostr n.ipAddress)]

def sensorJson (s : SensorInfo) : Json := .obj
  [("batteryLevel", onum s.batteryLevel),
   ("batteryCharging", obool s.batteryCharging),
   ("motionSupported", .bool s.motionSupported),
   ("orientationSupported", .bool s.orientationSupported),
   ("vibrationSupported", .bool s.vibrationSupported)]

def timezoneJson (t : TimezoneInfo) : Json := .obj
  [("timezone", .str t.timezone), ("timezoneOffset", .num t.timezoneOffset),
   ("locale", .str t.locale), ("dateFormat", .str t.dateFormat)]

def performanceJson (p : PerformanceInfo) : Json := .obj
  [("performanceNowPrecision", .num p.performanceNowPrecision),
   ("memoryUsed", onum p.memoryUsed), ("memoryTotal", onum p.memoryTotal),
   ("cpuClass", ostr p.cpuClass)]

def privacyJson (p : PrivacyInfo) : Json := .obj
  [("adBlockDetected", .bool p.adBlockDetected),
   ("privateBrowsing", .bool p.privateBrowsing),
   ("webrtcLeakDetected", .bool p.webrtcLeakDetected),
   ("pluginsHidden", .bool p.pluginsHidden)]

def fingerprintJson (fp : PartialFingerprint) : Json := .obj
  [("basic", basicJson fp.basic), ("screen", screenJson fp.screen),
   ("graphics", graphicsJson fp.graphics), ("audio", audioJson fp.audio),
   ("fonts", fontJson fp.fonts), ("network", networkJson fp.network),
   ("sensors", sensorJson fp.sensors), ("timezone", timezoneJson fp.timezone),
   ("performance", performanceJson fp.performance),
   ("privacy", privacyJson fp.privacy)]

/-- `Object.keys(data)`: top-level keys in object-literal order. -/
def topKeys : List String :=
  ["basic", "screen", "graphics", "audio", "fonts",
   "network", "sensors", "timezone", "performance", "privacy"]

/-- The default `Array.prototype.sort` comparator: UTF-16 code unit
lexicographic order (all keys are ASCII, so code points suffice). -/
def charListLe : List Char → List Char → Bool
  | [], _ => true
  | _ :: _, [] => false
  | a :: as, b :: bs =>
    if a.toNat < b.toNat then true
    else if b.toNat < a.toNat then false
    else charListLe as bs

def strLe (a b : String) : Bool := charListLe a.data b.data

def insertSorted (s : String) : List String → List String
  | [] => [s]
  | x :: xs => if strLe s x then s :: x :: xs else x :: insertSorted s xs

def sortKeys (l : List String) : List String := l.foldr insertSorted []

/-- `btoa`: base64 over the code points (all inputs here are ASCII). -/
def base64Chars : List Char :=
  "ABCDEFGHIJKLMNOPQRSTUVWXYZabcdefghijklmnopqrstuvwxyz0123456789+/".toList

def b64char (n : ℕ) : Char := base64Chars.getD n 'A'

def base64Encode : List ℕ → List Char
  | [] => []
  | [a] => [b64char (a / 4), b64char (a % 4 * 16), '=', '=']
  | [a, b] => [b64char (a / 4), b64char (a % 4 * 16 + b / 16),
               b64char (b % 16 * 4), '=']
  | a :: b :: c :: tl =>
    b64char (a / 4) :: b64char (a % 4 * 16 + b / 16) ::
      b64char (b % 16 * 4 + c / 64) :: b64char (c % 64) :: base64Encode tl

def btoa (s : String) : String := String.mk (base64Encode (s.data.map Char.toNat))

/-- generateFingerprintHash:
`btoa(JSON.stringify(data, Object.keys(data).sort())).replace(/[+/=]/g, '').substring(0, 32)`. -/
def generateFingerprintHash (data : PartialFingerprint) : String :=
  let hashableData := serialize (sortKeys topKeys) 4 (fingerprintJson data)
  String.mk ((((btoa hashableData).data.filter
    (fun c => !(c = '+' || c = '/' || c = '='))).take 32))

end Device

namespace Trust

/-! ## part_020: the trust scoring provider -/
/-! ### Trust scoring provider (part_020)

`calculateDeviceTrust`, `calculateBotDetectionTrust`,
`calculateConsistencyTrust` and `refreshTrustScore`.  JS numbers are `ℚ`.
The BotD detector environment is one of: not initialised (state still
`null`), `detect()` throwing, or `detect()` resolving to a result; the
`localStorage` slot is absent, unparsable, or a parsed list of numbers. -/
/-- The fields of a stored `DeviceFingerprint` that `calculateDeviceTrust`
reads (`riskScore`, `fonts.fontCount`, `graphics.webglExtensions.length`,
`privacy.pluginsHidden`). -/
structure StoredFingerprint where
  riskScore : ℚ
  fontCount : ℚ
  webglExtensionsLength : ℕ
  pluginsHidden : Bool

/-- calculateDeviceTrust.  `if (fingerprint.riskScore)` is JS number
truthiness, so the subtraction is skipped exactly when the risk score is
zero (observationally the same as subtracting 0). -/
def calculateDeviceTrust : Option StoredFingerprint → ℚ
  | none => 50
  | some fingerprint =>
    let s0 : ℚ := 100
    let s1 := if fingerprint.riskScore ≠ 0 then s0 - fingerprint.riskScore else s0
    let s2 := if fingerprint.fontCount > 20 then s1 + 5 else s1
    let s3 := if (fingerprint.webglExtensionsLength : ℚ) > 15 then s2 + 5 else s2
    let s4 := if fingerprint.pluginsHidden then s3 - 10 else s3
    max 0 (min 100 s4)

structure BotResult where
  bot : Bool
  automationTool : Option String
  searchBot : Bool

/-- The three ways a `calculateBotDetectionTrust` call can go. -/
inductive BotCtx where
  | noDetector
  | throws
  | ok (result : BotResult)

/-- calculateBotDetectionTrust: `\x7b score: 50, factors: [] \x7d` when the
detector is not initialised, 0/90 base from `result.bot`, −40 for an
automation tool, −20 for a search bot, floored at 0; the catch branch
returns 50 with the factor string `'BotD analysis failed'`. -/
def calculateBotDetectionTrust : BotCtx → ℚ × List String
  | .noDetector => (50, [])
  | .throws => (50, ["BotD analysis failed"])
  | .ok result =>
    let sf1 : ℚ × List String :=
      if result.bot then (0, ["BotD detected automation"]) else (90, [])
    let sf2 : ℚ × List String :=
      match result.automationTool with
      | some tool => (sf1.1 - 40, sf1.2 ++ ["Automation tool: " ++ tool])
      | none => sf1
    let sf3 : ℚ × List String :=
      if result.searchBot then (sf2.1 - 20, sf2.2 ++ ["Search bot detected"])
      else sf2
    (max 0 sf3.1, sf3.2)

/-- The `localStorage.getItem('trustHistory')` slot. -/
inductive HistoryStore where
  | absent
  | malformed
  | ok (entries : List ℚ)

/-- calculateConsistencyTrust: 50 when the slot is absent, unparsable, or
holds fewer than 2 recent entries; otherwise mean/variance of the last 5
entries, ±10/−20 adjustments clamped to [0, 100]. -/
def calculateConsistencyTrust : HistoryStore → ℚ
  | .absent => 50
  | .malformed => 50
  | .ok history =>
    let recentScores := lastN 5 history
    if recentScores.length < 2 then 50
    else
      let avg := recentScores.sum / (recentScores.length : ℚ)
      let variance := (recentScores.map (fun score => (score - avg) ^ 2)).sum /
        (recentScores.length : ℚ)
      if variance < 100 then min 100 (avg + 10)
      else if variance > 500 then max 0 (avg - 20)
      else avg

structure TrustScore where
  overall : ℤ
  device : ℤ
  botDetection : ℤ
  consistency : ℤ
  riskFactors : List String

/-- `history.push(overall); if (history.length > 10) history.shift()`. -/
def pushShift (l : List ℚ) (x : ℚ) : List ℚ :=
  let h := l ++ [x]
  if h.length > 10 then h.tail else h

/-- refreshTrustScore: the weighted fusion (0.50 / 0.40 / 0.10), the
rounded components, the collected risk factors, and the rolling-history
update (a malformed slot throws inside the storage `try`, leaving the
slot unchanged; an absent slot parses as `'[]'`). -/
def refreshTrustScore (deviceFingerprint : Option StoredFingerprint)
    (botCtx : BotCtx) (store : HistoryStore) : TrustScore × HistoryStore :=
  let deviceScore := calculateDeviceTrust deviceFingerprint
  let botPair := calculateBotDetectionTrust botCtx
  let botScore := botPair.1
  let botFactors := botPair.2
  let consistencyScore := calculateConsistencyTrust store
  let overall :=
    jsRoundQ (deviceScore * (50 / 100) + botScore * (40 / 100) +
      consistencyScore * (10 / 100))
  let allRiskFactors := botFactors ++
    (if deviceScore < 50 then ["Device fingerprint suspicious"] else []) ++
    (if consistencyScore < 50 then ["Inconsistent session history"] else [])
  let newTrustScore : TrustScore :=
    ⟨overall, jsRoundQ deviceScore, jsRoundQ botScore,
     jsRoundQ consistencyScore, allRiskFactors⟩
  let newStore : HistoryStore :=
    match store with
    | .malformed => .malformed
    | .absent => .ok (pushShift [] (overall : ℚ))
    | .ok entries => .ok (pushShift entries (overall : ℚ))
  (newTrustScore, newStore)

/-- Trust-history well-formedness: every stored entry lies in [0, 100]. -/
def HistOk : HistoryStore → Prop
  | .ok entries => ∀ x ∈ entries, 0 ≤ x ∧ x ≤ 100
  | _ => True

end Trust

def fpBase : Device.PartialFingerprint :=
  ⟨⟨"ua", "p", "v", "en", [], true, none, 8, none, 0, "av", none⟩,
   ⟨1920, 1080, 1920, 1040, 24, 24, 1, 800, 600, none⟩,
   ⟨"nv", "r", "1", [], "cf", "wf", []⟩,
   ⟨"af", 44100, 2, 1, 1, none⟩,
   ⟨[], "ff", 30⟩,
   ⟨none, none, none, true, none⟩,
   ⟨none, none, true, true, true⟩,
   ⟨"Europe/Bucharest", -120, "en-US", "df"⟩,
   ⟨1, none, none, none⟩,
   ⟨false, false, false, false⟩⟩

def fpVar : Device.PartialFingerprint :=
  { fpBase with
    audio := ⟨"other", 48000, 6, 2, 2, some 1⟩,
    network := ⟨some "4g", some 10, some 40, false, some "1.2.3.4"⟩,
    performance := ⟨3, some 100, some 200, some "x86"⟩ }

/-! ## Theorems -/

theorem lastN_length (n : ℕ) (l : List α) : (lastN n l).length = min n l.length := by
  simp [lastN]; omega

theorem lastN_of_length_le {n : ℕ} {l : List α} (h : l.length ≤ n) : lastN n l = l := by
  simp [lastN, Nat.sub_eq_zero_of_le h]

namespace KS

theorem Store.get_push_self (m : Store) (k : String) (v : ℤ) :
    (m.push k v).get k = m.get k ++ [v] := by
  induction m with
  | nil => simp [Store.push, Store.get]
  | cons hd tl ih =>
    obtain ⟨k', l⟩ := hd
    by_cases hk : k' = k
    · simp [Store.push, Store.get, hk]
    · simp [Store.push, Store.get, hk, ih]

theorem Store.get_push_other (m : Store) (k k' : String) (v : ℤ) (h : k' ≠ k) :
    (m.push k v).get k' = m.get k' := by
  induction m with
  | nil => simp [Store.push, Store.get, Ne.symm h]
  | cons hd tl ih =>
    obtain ⟨k₀, l⟩ := hd
    by_cases hk : k₀ = k
    · have : k₀ ≠ k' := fun hc => h (hc ▸ hk)
      simp [Store.push, Store.get, hk, this, Ne.symm h]
    · by_cases hk' : k₀ = k'
      · simp [Store.push, Store.get, hk, hk', h]
      · simp [Store.push, Store.get, hk, hk', ih]

theorem Store.get_capBucket_self (m : Store) (k : String) :
    (m.capBucket k).get k =
      (if (m.get k).length > 50 then (m.get k).tail else m.get k) := by
  induction m with
  | nil => simp [Store.capBucket, Store.get]
  | cons hd tl ih =>
    obtain ⟨k', l⟩ := hd
    by_cases hk : k' = k
    · by_cases hlen : l.length > 50
      · simp [Store.capBucket, Store.get, hk, hlen]
      · simp [Store.capBucket, Store.get, hk, hlen]
    · simp [Store.capBucket, Store.get, hk, ih]

theorem Store.get_capBucket_other (m : Store) (k k' : String) (h : k' ≠ k) :
    (m.capBucket k).get k' = m.get k' := by
  induction m with
  | nil => simp [Store.capBucket, Store.get]
  | cons hd tl ih =>
    obtain ⟨k₀, l⟩ := hd
    by_cases hk : k₀ = k
    · have hne : k₀ ≠ k' := fun hc => h (hc ▸ hk)
      by_cases hlen : l.length > 50
      · simp [Store.capBucket, Store.get, hk, hlen, hne, Ne.symm h]
      · simp [Store.capBucket, Store.get, hk, hlen, hne, Ne.symm h]
    · by_cases hk' : k₀ = k'
      · simp [Store.capBucket, Store.get, hk, hk', h]
      · simp [Store.capBucket, Store.get, hk, hk', ih]

theorem AMap.get?_set_self (m : AMap) (k : String) (v : ℚ) :
    (m.set k v).get? k = some v := by
  induction m with
  | nil => simp [AMap.set, AMap.get?]
  | cons hd tl ih =>
    obtain ⟨k', v'⟩ := hd
    by_cases hk : k' = k
    · simp [AMap.set, AMap.get?, hk]
    · simp [AMap.set, AMap.get?, hk, ih]

theorem length_wrap (s : String) : (wrap s).length = s.length + 2 := by
  have h1 : ("<" : String).length = 1 := rfl
  have h2 : (">" : String).length = 1 := rfl
  simp [wrap, String.length_append, h1, h2]; omega

theorem length_arrowKey (a b : String) :
    (arrowKey a b).length = a.length + b.length + 6 := by
  have h1 : ("[" : String).length = 1 := rfl
  have h2 : ("]->[" : String).length = 4 := rfl
  have h3 : ("]" : String).length = 1 := rfl
  simp [arrowKey, String.length_append, h1, h2, h3]; omega

theorem length_join (l : List String) :
    (String.join l).length = (l.map String.length).sum := by
  induction l with
  | nil => rfl
  | cons hd tl ih => simp [String.join_eq, String.length_append] at *; omega

end KS

namespace KS9

open KS

theorem lastN_cap_append (u : List ℤ) (v : ℤ) :
    (if (lastN 50 u ++ [v]).length > 50 then (lastN 50 u ++ [v]).tail
     else lastN 50 u ++ [v]) = lastN 50 (u ++ [v]) := by
  by_cases h : u.length ≤ 49
  · have h1 : lastN 50 u = u := lastN_of_length_le (by omega)
    have h2 : lastN 50 (u ++ [v]) = u ++ [v] := lastN_of_length_le (by simp; omega)
    rw [h1, h2]
    simp; omega
  · have hlen : (lastN 50 u).length = 50 := by rw [lastN_length]; omega
    have hgt : (lastN 50 u ++ [v]).length > 50 := by simp [hlen]
    rw [if_pos hgt]
    have hne : lastN 50 u ≠ [] := by
      intro hc; rw [hc] at hlen; simp at hlen
    obtain ⟨c0, cs, hc⟩ := List.exists_cons_of_ne_nil hne
    have htail : (lastN 50 u ++ [v]).tail = (lastN 50 u).tail ++ [v] := by
      rw [hc]; simp
    rw [htail]
    have htd : (lastN 50 u).tail = u.drop (u.length - 50 + 1) := by
      unfold lastN
      rw [List.tail_drop]
    have hrhs : lastN 50 (u ++ [v]) = u.drop (u.length + 1 - 50) ++ [v] := by
      unfold lastN
      have : (u ++ [v]).length - 50 = u.length + 1 - 50 := by simp
      rw [this, List.drop_append_of_le_length (by omega)]
    rw [htd, hrhs]
    have : u.length - 50 + 1 = u.length + 1 - 50 := by omega
    rw [this]

theorem pushCap_rel (a b : Store) (key : String) (v : ℤ)
    (h : ∀ k, a.get k = lastN 50 (b.get k)) :
    ∀ k, (pushCap a key v).get k = lastN 50 ((b.push key v).get k) := by
  intro k
  by_cases hk : k = key
  · subst hk
    unfold pushCap
    rw [Store.get_capBucket_self, Store.get_push_self, Store.get_push_self, h k]
    exact lastN_cap_append (b.get k) v
  · unfold pushCap
    rw [Store.get_capBucket_other _ _ _ hk, Store.get_push_other _ _ _ _ hk,
      Store.get_push_other _ _ _ _ hk]
    exact h k

theorem ngramPushes_rel (ks : List String) (v : ℤ) :
    ∀ a b : Store, (∀ k, a.get k = lastN 50 (b.get k)) →
      ∀ k, (ngramPushes ks v a).get k = lastN 50 ((ngramPushesU ks v b).get k) := by
  induction ks with
  | nil => intro a b h k; exact h k
  | cons k0 tl ih =>
    intro a b h k
    exact ih (pushCap a k0 v) (b.push k0 v) (pushCap_rel a b k0 v h) k

theorem capRel_step (a b : St) (h : CapRel a b) (e : Ev) :
    CapRel (step a e) (stepU b e) := by
  obtain ⟨hd, hf, hds, hls, hlk, hpc, hps, hng⟩ := h
  cases e with
  | down key t =>
    refine ⟨?_, ?_, ?_, ?_, ?_, ?_, ?_, ?_⟩ <;>
      simp only [step, stepU, onKeyDown, onKeyDownU, hd, hf, hds, hls, hlk, hpc, hps]
    intro k
    cases hb : b.prevStamp with
    | none => exact hng k
    | some ps =>
      by_cases hlen : b.prevChars.length > 0
      · by_cases hcond : t - ps < 1000 ∧ t - ps ≤ 1500
        · simp only [hlen, if_true, hcond]
          exact ngramPushes_rel (ngramKeys b.prevChars key) (jsRoundQ (t - ps))
            a.ngram b.ngram hng k
        · simp only [hlen, if_true, if_neg hcond]
          exact hng k
      · simp only [hlen, if_false]
        exact hng k
  | up key t =>
    have hget : a.dwellStarts.get? key = b.dwellStarts.get? key := by rw [hds]
    cases hb : b.dwellStarts.get? key with
    | none =>
      refine ⟨?_, ?_, ?_, ?_, ?_, ?_, ?_, ?_⟩ <;>
        simp only [step, stepU, onKeyUp, hget, hb, hd, hf, hds, hls, hlk, hpc, hps] <;>
        try rfl
      exact hng
    | some d =>
      refine ⟨?_, ?_, ?_, ?_, ?_, ?_, ?_, ?_⟩ <;>
        simp only [step, stepU, onKeyUp, hget, hb, hd, hf, hds, hls, hlk, hpc, hps] <;>
        try rfl
      exact hng

theorem capRel_run (evs : List Ev) : CapRel (run evs) (runU evs) := by
  have base : CapRel init init := by
    refine ⟨rfl, rfl, rfl, rfl, rfl, rfl, rfl, fun k => ?_⟩
    simp [init, Store.get, lastN]
  rw [run, runU]
  induction evs using List.reverseRecOn with
  | nil => exact base
  | append_singleton tl e ih =>
    rw [List.foldl_append, List.foldl_append]
    exact capRel_step _ _ ih e

end KS9

namespace KS

theorem lastN_drop_of_le {j1 j2 : ℕ} (pc : List α) (hj : j1 ≤ j2) (hle : j2 ≤ pc.length) :
    (lastN j2 pc).drop (j2 - j1) = lastN j1 pc := by
  unfold lastN
  rw [List.drop_drop]
  congr 1
  omega

theorem join_lastN_length_lt (pc : List String) (j1 j2 : ℕ)
    (hpos : ∀ c ∈ pc, 0 < c.length) (hj : j1 < j2) (hle : j2 ≤ pc.length) :
    (String.join (lastN j1 pc)).length < (String.join (lastN j2 pc)).length := by
  have hdec : lastN j1 pc = (lastN j2 pc).drop (j2 - j1) :=
    (lastN_drop_of_le pc (le_of_lt hj) hle).symm
  have hsplit : (lastN j2 pc) = (lastN j2 pc).take (j2 - j1) ++ lastN j1 pc := by
    rw [hdec, List.take_append_drop]
  rw [length_join, length_join, hdec]
  conv_rhs => rw [hsplit]
  rw [List.map_append, List.sum_append, hdec]
  have hpos' : 0 < (((lastN j2 pc).take (j2 - j1)).map String.length).sum := by
    apply List.sum_pos
    · intro a ha
      simp only [List.mem_map] at ha
      obtain ⟨c, hc, rfl⟩ := ha
      exact hpos c (List.mem_of_mem_drop (List.mem_of_mem_take hc))
    · have hlen2 : (lastN j2 pc).length = j2 := by rw [lastN_length]; omega
      have hlen3 : (((lastN j2 pc).take (j2 - j1)).map String.length).length = j2 - j1 := by
        simp only [List.length_map, List.length_take, hlen2]
        omega
      intro hc
      rw [hc] at hlen3
      simp only [List.length_nil] at hlen3
      omega
  omega

end KS

namespace KS9

open KS

theorem mkNgramKey_length_lt (pc : List String) (key : String) {j1 j2 : ℕ}
    (hj : j1 < j2) (hle : j2 ≤ pc.length) :
    (mkNgramKey pc key j1).length < (mkNgramKey pc key j2).length := by
  unfold mkNgramKey
  rw [length_arrowKey, length_arrowKey]
  have hmap : ∀ j, (lastN j pc).map wrap = lastN j (pc.map wrap) := by
    intro j
    unfold lastN
    rw [List.map_drop, List.length_map]
  rw [hmap, hmap]
  have := join_lastN_length_lt (pc.map wrap) j1 j2
    (by intro c hc; simp only [List.mem_map] at hc; obtain ⟨d, _, rfl⟩ := hc
        rw [length_wrap]; omega)
    hj (by simpa using hle)
  omega

theorem ngramKeys_nodup (pc : List String) (key : String) : (ngramKeys pc key).Nodup := by
  unfold ngramKeys
  apply List.Nodup.map_on _ (List.nodup_range pc.length)
  intro i1 h1 i2 h2 heq
  simp only [List.mem_range] at h1 h2
  rcases lt_trichotomy i1 i2 with h | h | h
  · exact absurd (congrArg String.length heq)
      (Nat.ne_of_lt (mkNgramKey_length_lt pc key (by omega) (by omega)))
  · exact h
  · exact absurd (congrArg String.length heq).symm
      (Nat.ne_of_lt (mkNgramKey_length_lt pc key (by omega) (by omega)))

theorem mkNgramKey_mem_ngramKeys (pc : List String) (key : String) {j : ℕ}
    (h1 : 1 ≤ j) (h2 : j ≤ pc.length) : mkNgramKey pc key j ∈ ngramKeys pc key := by
  unfold ngramKeys
  refine List.mem_map.mpr ⟨j - 1, List.mem_range.mpr (by omega), ?_⟩
  congr 1
  omega

theorem get_ngramPushes_not_mem (ks : List String) (v : ℤ) :
    ∀ m : Store, ∀ k, k ∉ ks → (ngramPushes ks v m).get k = m.get k := by
  induction ks with
  | nil => intro m k _; rfl
  | cons k0 tl ih =>
    intro m k hk
    have hne : k ≠ k0 := fun hc => hk (hc ▸ List.mem_cons_self k0 tl)
    have htl : k ∉ tl := fun hc => hk (List.mem_cons_of_mem k0 hc)
    show (ngramPushes tl v (pushCap m k0 v)).get k = m.get k
    rw [ih (pushCap m k0 v) k htl]
    unfold pushCap
    rw [Store.get_capBucket_other _ _ _ hne, Store.get_push_other _ _ _ _ hne]

theorem get_ngramPushesU_not_mem (ks : List String) (v : ℤ) :
    ∀ m : Store, ∀ k, k ∉ ks → (ngramPushesU ks v m).get k = m.get k := by
  induction ks with
  | nil => intro m k _; rfl
  | cons k0 tl ih =>
    intro m k hk
    have hne : k ≠ k0 := fun hc => hk (hc ▸ List.mem_cons_self k0 tl)
    have htl : k ∉ tl := fun hc => hk (List.mem_cons_of_mem k0 hc)
    show (ngramPushesU tl v (m.push k0 v)).get k = m.get k
    rw [ih (m.push k0 v) k htl, Store.get_push_other _ _ _ _ hne]

theorem get_ngramPushes_mem (ks : List String) (v : ℤ) :
    ∀ m : Store, ∀ k, ks.Nodup → k ∈ ks →
      (ngramPushes ks v m).get k =
        (if (m.get k ++ [v]).length > 50 then (m.get k ++ [v]).tail
         else m.get k ++ [v]) := by
  induction ks with
  | nil => intro m k _ hk; cases hk
  | cons k0 tl ih =>
    intro m k hnd hk
    rcases List.mem_cons.mp hk with rfl | hmem
    · have htl : k ∉ tl := (List.nodup_cons.mp hnd).1
      show (ngramPushes tl v (pushCap m k v)).get k = _
      rw [get_ngramPushes_not_mem tl v (pushCap m k v) k htl]
      unfold pushCap
      rw [Store.get_capBucket_self, Store.get_push_self]
    · by_cases hke : k = k0
      · exact absurd (hke ▸ hmem) (List.nodup_cons.mp hnd).1
      · show (ngramPushes tl v (pushCap m k0 v)).get k = _
        have hbase : (pushCap m k0 v).get k = m.get k := by
          unfold pushCap
          rw [Store.get_capBucket_other _ _ _ hke, Store.get_push_other _ _ _ _ hke]
        rw [ih (pushCap m k0 v) k (List.nodup_cons.mp hnd).2 hmem, hbase]

theorem get_ngramPushesU_mem (ks : List String) (v : ℤ) :
    ∀ m : Store, ∀ k, ks.Nodup → k ∈ ks →
      (ngramPushesU ks v m).get k = m.get k ++ [v] := by
  induction ks with
  | nil => intro m k _ hk; cases hk
  | cons k0 tl ih =>
    intro m k hnd hk
    rcases List.mem_cons.mp hk with rfl | hmem
    · have htl : k ∉ tl := (List.nodup_cons.mp hnd).1
      show (ngramPushesU tl v (m.push k v)).get k = _
      rw [get_ngramPushesU_not_mem tl v (m.push k v) k htl, Store.get_push_self]
    · by_cases hke : k = k0
      · exact absurd (hke ▸ hmem) (List.nodup_cons.mp hnd).1
      · show (ngramPushesU tl v (m.push k0 v)).get k = _
        rw [ih (m.push k0 v) k (List.nodup_cons.mp hnd).2 hmem,
          Store.get_push_other _ _ _ _ hke]

theorem step_prevChars_le (s : St) (e : Ev) (h : s.prevChars.length ≤ 5) :
    (step s e).prevChars.length ≤ 5 := by
  cases e with
  | down k t =>
    show (onKeyDown s k t).prevChars.length ≤ 5
    unfold onKeyDown
    simp only
    by_cases hlen : (s.prevChars ++ [k]).length > 5
    · rw [if_pos hlen]
      simp at hlen ⊢
      omega
    · rw [if_neg hlen]
      simp at hlen ⊢
      omega
  | up k t =>
    show (onKeyUp s k t).prevChars.length ≤ 5
    unfold onKeyUp
    cases s.dwellStarts.get? k <;> simpa

theorem run_prevChars_le (evs : List Ev) : (run evs).prevChars.length ≤ 5 := by
  rw [run]
  induction evs using List.reverseRecOn with
  | nil => simp [init]
  | append_singleton tl e ih =>
    rw [List.foldl_append]
    exact step_prevChars_le _ e ih

theorem dwell_len_pair (s : St) (t t' : ℚ) :
    ((onKeyUp (onKeyDown s "a" t) "a" t').dwell.get "<a>").length =
      ((s.dwell.get "<a>").length) + 1 := by
  have hstart : (onKeyDown s "a" t).dwellStarts.get? "a" = some t := by
    unfold onKeyDown
    exact AMap.get?_set_self _ _ _
  have hdw : (onKeyDown s "a" t).dwell = s.dwell := by unfold onKeyDown; rfl
  unfold onKeyUp
  rw [hstart]
  simp only [hdw]
  have hwrap : wrap "a" = "<a>" := rfl
  rw [hwrap, Store.get_push_self]
  simp

theorem run_pairs_dwell (n : ℕ) :
    ((run (pairEvs n)).dwell.get "<a>").length = n := by
  induction n with
  | zero => simp [pairEvs, run, init, Store.get]
  | succ m ih =>
    have hsplit : pairEvs (m + 1) =
        pairEvs m ++ [Ev.down "a" (2000 * m), Ev.up "a" (2000 * m)] := by
      unfold pairEvs
      rw [List.range_succ, List.flatMap_append]
      simp
    rw [run, hsplit, List.foldl_append]
    show ((List.foldl step (List.foldl step init (pairEvs m))
      [Ev.down "a" (2000 * m), Ev.up "a" (2000 * m)]).dwell.get "<a>").length = m + 1
    rw [show (List.foldl step (List.foldl step init (pairEvs m))
      [Ev.down "a" (2000 * (m : ℚ)), Ev.up "a" (2000 * m)]) =
        onKeyUp (onKeyDown (run (pairEvs m)) "a" (2000 * m)) "a" (2000 * m) from rfl]
    rw [dwell_len_pair, ih]

end KS9

namespace KS3

open KS KS9

theorem mkNgramKey_length_lt3 (pc : List String) (key : String)
    (hpos : ∀ c ∈ pc, 0 < c.length) {j1 j2 : ℕ}
    (hj : j1 < j2) (hle : j2 ≤ pc.length) :
    (mkNgramKey pc key j1).length < (mkNgramKey pc key j2).length := by
  unfold mkNgramKey
  rw [length_arrowKey, length_arrowKey]
  have := join_lastN_length_lt pc j1 j2 hpos hj hle
  omega

theorem ngramKeys_nodup3 (pc : List String) (key : String)
    (hpos : ∀ c ∈ pc, 0 < c.length) : (ngramKeys pc key).Nodup := by
  unfold ngramKeys
  refine List.Nodup.filterMap ?_ (List.nodup_range 5)
  intro i1 i2 b h1 h2
  by_cases hc1 : pc.length ≥ i1 + 1
  case neg => simp [hc1] at h1
  by_cases hc2 : pc.length ≥ i2 + 1
  case neg => simp [hc2] at h2
  simp only [hc1, hc2, if_true, Option.mem_def, Option.some.injEq] at h1 h2
  have heq : mkNgramKey pc key (i1 + 1) = mkNgramKey pc key (i2 + 1) := h1.trans h2.symm
  rcases lt_trichotomy i1 i2 with h | h | h
  · exact absurd (congrArg String.length heq)
      (Nat.ne_of_lt (@mkNgramKey_length_lt3 pc key hpos (i1 + 1) (i2 + 1)
        (by omega) (by omega)))
  · exact h
  · exact absurd (congrArg String.length heq).symm
      (Nat.ne_of_lt (@mkNgramKey_length_lt3 pc key hpos (i2 + 1) (i1 + 1)
        (by omega) (by omega)))

theorem mkNgramKey_mem_ngramKeys3 (pc : List String) (key : String) {j : ℕ}
    (h1 : 1 ≤ j) (h2 : j ≤ pc.length) (h5 : j ≤ 5) :
    mkNgramKey pc key j ∈ ngramKeys pc key := by
  unfold ngramKeys
  refine List.mem_filterMap.mpr ⟨j - 1, List.mem_range.mpr (by omega), ?_⟩
  have : j - 1 + 1 = j := by omega
  rw [this, if_pos (by omega)]

end KS3

/-! ## Claim theorems for the keystroke capture layer -/
/-- C3 (counterexample): the dwell buffer is not capped at 50 samples: after 51
down/up pairs of the key a, the part_009 dwell bucket for that key retains all
51 samples, so the claimed 50-sample FIFO bound on every dwell/flight/n-gram
bucket is false. -/
theorem C3_counterexample_dwell_uncapped :
    ((KS9.run (KS9.pairEvs 51)).dwell.get "<a>").length = 51 ∧
    ¬ ((KS9.run (KS9.pairEvs 51)).dwell.get "<a>").length ≤ 50 := by
  have h := KS9.run_pairs_dwell 51
  exact ⟨h, by omega⟩

/-- C3 (amended): only the n-gram buckets of the part_009 provider are capped:
every n-gram bucket retains at most 50 samples and its contents are exactly the
last 50 samples ever appended to it (the uncapped ghost run records the full
append history), in insertion order; the dwell and flight buffers are identical
to the uncapped run, i.e. unbounded. -/
theorem C3_ngram_fifo_cap (evs : List KS9.Ev) (k : String) :
    ((KS9.run evs).ngram.get k).length ≤ 50 ∧
    (KS9.run evs).ngram.get k = lastN 50 ((KS9.runU evs).ngram.get k) ∧
    (KS9.run evs).dwell = (KS9.runU evs).dwell ∧
    (KS9.run evs).flight = (KS9.runU evs).flight := by
  obtain ⟨hd, hf, _, _, _, _, _, hng⟩ := KS9.capRel_run evs
  refine ⟨?_, hng k, hd, hf⟩
  rw [hng k, lastN_length]
  omega

/-- C4: in both providers, the dwell sample recorded when a key goes up equals
Math.round(keyUp timestamp − the key's most recent keyDown timestamp), stored
under the (normalized) key, and the flight sample recorded when a key goes down
after another key went up equals Math.round(keyDown₂ − keyUp₁), stored under
the ordered pair key [prev]->[next]. -/
theorem C4_dwell_flight_pairing :
    (∀ (s : KS9.St) (k : String) (a b : ℚ),
      (KS9.onKeyUp (KS9.onKeyDown s k a) k b).dwell.get (KS.wrap k) =
        s.dwell.get (KS.wrap k) ++ [jsRoundQ (b - a)]) ∧
    (∀ (s : KS9.St) (j k : String) (a b : ℚ),
      (KS9.onKeyDown (KS9.onKeyUp s j a) k b).flight.get
          (KS.arrowKey (KS.wrap j) (KS.wrap k)) =
        (KS9.onKeyUp s j a).flight.get (KS.arrowKey (KS.wrap j) (KS.wrap k)) ++
          [jsRoundQ (b - a)]) ∧
    (∀ (s : KS3.St) (k : String) (a b : ℚ),
      (KS3.handleKeyUp (KS3.handleKeyDown s k a) k b).dwell.get
          (KS3.stripAngle (KS3.normalizeKey k)) =
        s.dwell.get (KS3.stripAngle (KS3.normalizeKey k)) ++ [jsRoundQ (b - a)]) ∧
    (∀ (s : KS3.St) (j k : String) (a b : ℚ),
      (KS3.handleKeyDown (KS3.handleKeyUp s j a) k b).flight.get
          (KS.arrowKey (KS3.normalizeKey j) (KS3.normalizeKey k)) =
        (KS3.handleKeyUp s j a).flight.get
          (KS.arrowKey (KS3.normalizeKey j) (KS3.normalizeKey k)) ++
          [jsRoundQ (b - a)]) := by
  refine ⟨?_, ?_, ?_, ?_⟩
  · intro s k a b
    have hstart : (KS9.onKeyDown s k a).dwellStarts.get? k = some a := by
      unfold KS9.onKeyDown
      exact KS.AMap.get?_set_self _ _ _
    have hdw : (KS9.onKeyDown s k a).dwell = s.dwell := by unfold KS9.onKeyDown; rfl
    unfold KS9.onKeyUp
    rw [hstart]
    simp only [hdw]
    rw [KS.Store.get_push_self]
  · intro s j k a b
    have hstamp : (KS9.onKeyUp s j a).lastKeyupStamp = some a := by
      unfold KS9.onKeyUp
      cases s.dwellStarts.get? j <;> rfl
    have hkey : (KS9.onKeyUp s j a).lastKeyupKey = some j := by
      unfold KS9.onKeyUp
      cases s.dwellStarts.get? j <;> rfl
    unfold KS9.onKeyDown
    simp only [hstamp, hkey]
    rw [KS.Store.get_push_self]
  · intro s k a b
    have hstart : (KS3.handleKeyDown s k a).dwellStartTimes.get? (KS3.normalizeKey k) =
        some a := by
      unfold KS3.handleKeyDown
      exact KS.AMap.get?_set_self _ _ _
    have hdw : (KS3.handleKeyDown s k a).dwell = s.dwell := by
      unfold KS3.handleKeyDown; rfl
    unfold KS3.handleKeyUp
    simp only [hstart, hdw]
    rw [KS.Store.get_push_self]
  · intro s j k a b
    have hstamp : (KS3.handleKeyUp s j a).lastKeyUpStamp = some a := by
      unfold KS3.handleKeyUp
      cases h : s.dwellStartTimes.get? (KS3.normalizeKey j) <;> simp [h]
    have hkey : (KS3.handleKeyUp s j a).lastKeyUpKey = some (KS3.normalizeKey j) := by
      unfold KS3.handleKeyUp
      cases h : s.dwellStartTimes.get? (KS3.normalizeKey j) <;> simp [h]
    unfold KS3.handleKeyDown
    simp only [hstamp, hkey]
    rw [KS.Store.get_push_self]

/-- C5: on a key-down with non-empty rolling context, n-gram samples are
appended iff the gap since the previous key-down satisfies gap < 1000 and
gap ≤ 1500; when accepted, exactly one sample Math.round(gap) is appended for
every suffix length j = 1 .. min(5, context length), keyed by the last j
context keys followed by the current key; the context never exceeds 5 keys,
and a rejected gap leaves the n-gram buffers untouched.  Stated for both
provider variants. -/
theorem C5_ngram_burst_gating :
    (∀ evs : List KS9.Ev, (KS9.run evs).prevChars.length ≤ 5) ∧
    (∀ (s : KS9.St) (k : String) (t p : ℚ), s.prevStamp = some p →
      ¬(t - p < 1000 ∧ t - p ≤ 1500) → (KS9.onKeyDown s k t).ngram = s.ngram) ∧
    (∀ (s : KS9.St) (k : String) (t p : ℚ), s.prevStamp = some p →
      s.prevChars ≠ [] → t - p < 1000 ∧ t - p ≤ 1500 →
      ∀ j, 1 ≤ j → j ≤ s.prevChars.length →
        (KS9.onKeyDown s k t).ngram.get (KS9.mkNgramKey s.prevChars k j) =
          (if (s.ngram.get (KS9.mkNgramKey s.prevChars k j) ++ [jsRoundQ (t - p)]).length > 50
           then (s.ngram.get (KS9.mkNgramKey s.prevChars k j) ++ [jsRoundQ (t - p)]).tail
           else s.ngram.get (KS9.mkNgramKey s.prevChars k j) ++ [jsRoundQ (t - p)])) ∧
    (∀ (s : KS3.St) (k : String) (t p : ℚ), s.prevStamp = some p →
      ¬(t - p < 1000 ∧ t - p ≤ 1500) → (KS3.handleKeyDown s k t).ngram = s.ngram) ∧
    (∀ (s : KS3.St) (k : String) (t p : ℚ), s.prevStamp = some p →
      s.prevCharsBuf ≠ [] → (∀ c ∈ s.prevCharsBuf, 0 < c.length) →
      t - p < 1000 ∧ t - p ≤ 1500 →
      ∀ j, 1 ≤ j → j ≤ min 5 s.prevCharsBuf.length →
        (KS3.handleKeyDown s k t).ngram.get
            (KS3.mkNgramKey s.prevCharsBuf (KS3.normalizeKey k) j) =
          s.ngram.get (KS3.mkNgramKey s.prevCharsBuf (KS3.normalizeKey k) j) ++
            [jsRoundQ (t - p)]) := by
  refine ⟨KS9.run_prevChars_le, ?_, ?_, ?_, ?_⟩
  · intro s k t p hp hcond
    unfold KS9.onKeyDown
    simp only [hp]
    by_cases hlen : s.prevChars.length > 0
    · simp only [hlen, if_true, if_neg hcond]
    · simp [hlen]
  · intro s k t p hp hne hcond j hj1 hj2
    have hng : (KS9.onKeyDown s k t).ngram =
        KS9.ngramPushes (KS9.ngramKeys s.prevChars k) (jsRoundQ (t - p)) s.ngram := by
      unfold KS9.onKeyDown
      simp only [hp]
      have hlen : s.prevChars.length > 0 := List.length_pos.mpr hne
      simp [hlen, hcond]
    rw [hng]
    exact KS9.get_ngramPushes_mem _ _ s.ngram _
      (KS9.ngramKeys_nodup s.prevChars k)
      (KS9.mkNgramKey_mem_ngramKeys s.prevChars k hj1 hj2)
  · intro s k t p hp hcond
    unfold KS3.handleKeyDown
    simp only [hp]
    by_cases hlen : s.prevCharsBuf.length > 0
    · simp only [hlen, if_true, if_neg hcond]
    · simp [hlen]
  · intro s k t p hp hne hpos hcond j hj1 hj2
    have hng : (KS3.handleKeyDown s k t).ngram =
        KS9.ngramPushesU (KS3.ngramKeys s.prevCharsBuf (KS3.normalizeKey k))
          (jsRoundQ (t - p)) s.ngram := by
      unfold KS3.handleKeyDown
      simp only [hp]
      have hlen : s.prevCharsBuf.length > 0 := List.length_pos.mpr hne
      simp [hlen, hcond]
    rw [hng]
    exact KS9.get_ngramPushesU_mem _ _ s.ngram _
      (KS3.ngramKeys_nodup3 s.prevCharsBuf (KS3.normalizeKey k) hpos)
      (KS3.mkNgramKey_mem_ngramKeys3 s.prevCharsBuf (KS3.normalizeKey k)
        hj1 (by omega) (by omega))

/-- C5 witness: on a concrete part_009 state with context [a] and previous
key-down at 0, a key-down of b at 999 ms appends one rounded sample to the
n-gram bucket [<a>]->[<b>], while key-downs at exactly 1000, 1499 and 1500 ms
leave the n-gram map unchanged. -/
theorem C5_ngram_burst_gating_witness :
    ((KS9.onKeyDown ⟨[], [], [], [], none, none, ["a"], some 0⟩ "b" 999).ngram.get
        (KS9.mkNgramKey ["a"] "b" 1) = [jsRoundQ 999]) ∧
    (KS9.onKeyDown ⟨[], [], [], [], none, none, ["a"], some 0⟩ "b" 1000).ngram = [] ∧
    (KS9.onKeyDown ⟨[], [], [], [], none, none, ["a"], some 0⟩ "b" 1499).ngram = [] ∧
    (KS9.onKeyDown ⟨[], [], [], [], none, none, ["a"], some 0⟩ "b" 1500).ngram = [] := by
  refine ⟨?_, ?_, ?_, ?_⟩
  · have h := C5_ngram_burst_gating.2.2.1 ⟨[], [], [], [], none, none, ["a"], some 0⟩
      "b" 999 0 rfl (by simp) (by norm_num) 1 (by norm_num) (by simp)
    simpa [KS.Store.get] using h
  · exact C5_ngram_burst_gating.2.1 ⟨[], [], [], [], none, none, ["a"], some 0⟩
      "b" 1000 0 rfl (by norm_num)
  · exact C5_ngram_burst_gating.2.1 ⟨[], [], [], [], none, none, ["a"], some 0⟩
      "b" 1499 0 rfl (by norm_num)
  · exact C5_ngram_burst_gating.2.1 ⟨[], [], [], [], none, none, ["a"], some 0⟩
      "b" 1500 0 rfl (by norm_num)

namespace TypingPage

attribute [local instance] Classical.propDecidable

theorem sampleMean_nil : sampleMean [] = 0 := by
  simp [sampleMean]

theorem sampleSqDev_nil (avg : ℝ) : sampleSqDev [] avg = 0 := by
  simp [sampleSqDev]

theorem stdDevOf_nil : stdDevOf [] = 0 := by
  simp [stdDevOf, sampleSqDev_nil, Real.sqrt_zero]

theorem stdDevOf_singleton (x : ℝ) : stdDevOf [x] = 0 := by
  simp [stdDevOf, sampleSqDev, sampleMean]

theorem uniqueCount_nil : uniqueCount [] = 0 := by
  simp [uniqueCount]

theorem ngramVariancesOf_eq (data : KeystrokeData) :
    ngramVariancesOf data = data.ngram_times.map (fun p => stdDevOf p.2) := by
  unfold ngramVariancesOf
  apply List.map_congr_left
  intro p _
  match h : p.2 with
  | [] => simp [stdDevOf_nil]
  | [x] => simp [stdDevOf_singleton]
  | a :: b :: t => simp

theorem avgNgramVarianceOf_eq_spec (data : KeystrokeData) :
    avgNgramVarianceOf data =
      (if (data.ngram_times.map (fun p => stdDevOf p.2)).length > 0
       then sampleMean (data.ngram_times.map (fun p => stdDevOf p.2)) else 0) := by
  unfold avgNgramVarianceOf
  rw [ngramVariancesOf_eq]

theorem length_pos_iff_ne (l : List ℝ) : ¬ l.length > 0 ↔ l = [] := by
  constructor
  · intro h; exact List.eq_nil_of_length_eq_zero (by omega)
  · intro h; subst h; simp

end TypingPage

/-- Shared helper: analyzeKeystrokePatterns agrees with the spec-side rule
table (score and flags) on all inputs. -/
theorem TypingPage.analyze_eq_spec (data : TypingPage.KeystrokeData) :
    (TypingPage.analyzeKeystrokePatterns data).botScore =
      TypingPage.specKeystrokeBotScore data ∧
    (TypingPage.analyzeKeystrokePatterns data).flags =
      TypingPage.specKeystrokeFlags data := by
  classical
  simp only [TypingPage.analyzeKeystrokePatterns, TypingPage.specKeystrokeBotScore,
    TypingPage.specKeystrokeFlags]
  rw [TypingPage.avgNgramVarianceOf_eq_spec]
  by_cases hd : ((data.dwell_times.map Prod.snd).flatten).length > 0 <;>
    by_cases hf : ((data.flight_times.map Prod.snd).flatten).length > 0
  · simp only [hd, hf, if_true]
    constructor <;> first | trivial | rfl
  · have hfe : (data.flight_times.map Prod.snd).flatten = [] :=
      (TypingPage.length_pos_iff_ne _).mp hf
    simp only [hd, hf, if_true, if_false, hfe, TypingPage.stdDevOf_nil,
      TypingPage.sampleMean_nil, List.length_nil, gt_iff_lt, lt_self_iff_false]
    constructor <;> first | trivial | rfl
  · have hde : (data.dwell_times.map Prod.snd).flatten = [] :=
      (TypingPage.length_pos_iff_ne _).mp hd
    simp only [hd, hf, if_true, if_false, hde, TypingPage.stdDevOf_nil,
      TypingPage.uniqueCount_nil, List.length_nil, TypingPage.listMax, TypingPage.listMin,
      gt_iff_lt, lt_self_iff_false, sub_zero]
    constructor <;> first | trivial | rfl
  · have hde : (data.dwell_times.map Prod.snd).flatten = [] :=
      (TypingPage.length_pos_iff_ne _).mp hd
    have hfe : (data.flight_times.map Prod.snd).flatten = [] :=
      (TypingPage.length_pos_iff_ne _).mp hf
    simp only [hd, hf, if_false, hde, hfe, TypingPage.stdDevOf_nil,
      TypingPage.sampleMean_nil, TypingPage.uniqueCount_nil, List.length_nil,
      TypingPage.listMax, TypingPage.listMin, gt_iff_lt, lt_self_iff_false, sub_zero]
    constructor <;> first | trivial | rfl

/-- C1: the typing-checker bot-likelihood score is exactly the additive rule
table of spec section 4.1 (seven rules, the stated thresholds, flag strings in
rule order, a 10-point human-variation rebate floored at 0, and a final cap of
min(sum, 100)); the flag list agrees rule for rule. -/
theorem C1_keystroke_rule_table (data : TypingPage.KeystrokeData) :
    (TypingPage.analyzeKeystrokePatterns data).botScore =
      TypingPage.specKeystrokeBotScore data ∧
    (TypingPage.analyzeKeystrokePatterns data).flags =
      TypingPage.specKeystrokeFlags data :=
  TypingPage.analyze_eq_spec data

namespace Ptr

open TypingPage

attribute [local instance] Classical.propDecidable

theorem jsRoundR_pct_mem {x : ℝ} (h0 : 0 ≤ x) (h1 : x ≤ 1) :
    0 ≤ jsRoundR (x * 100) ∧ jsRoundR (x * 100) ≤ 100 := by
  unfold jsRoundR
  constructor
  · exact Int.le_floor.mpr (by push_cast; linarith)
  · have : ⌊x * 100 + 1 / 2⌋ < 101 := Int.floor_lt.mpr (by push_cast; linarith)
    omega

theorem calculateStraightness_mem (pts : List Point) :
    0 ≤ calculateStraightness pts ∧ calculateStraightness pts ≤ 1 := by
  unfold calculateStraightness
  by_cases hlen : pts.length < 10
  · simp [hlen]
  · simp only [hlen, if_false]
    set idxs := List.range (pts.length - 8)
    set t := idxs.countP (fun i => decide (¬ windowExpected pts i < 10)) with ht
    set s := idxs.countP (fun i => decide (¬ windowExpected pts i < 10 ∧
      windowExpected pts i / windowActual pts i > 0.95)) with hs
    have hst : s ≤ t := by
      rw [hs, ht]
      apply List.countP_mono_left
      intro a _ hp
      simp only [decide_eq_true_eq] at hp ⊢
      exact hp.1
    by_cases htpos : t > 0
    · simp only [htpos, if_true]
      constructor
      · positivity
      · rw [div_le_one (by exact_mod_cast htpos)]
        exact_mod_cast hst
    · simp [htpos]

theorem consistencyScore_mem (velocities : List ℝ) :
    0 ≤ consistencyScore velocities ∧ consistencyScore velocities ≤ 1 := by
  unfold consistencyScore
  constructor
  · exact le_max_left 0 _
  · have hcv : (0 : ℝ) ≤
        (if sampleMean velocities > 0
         then stdDevOf velocities / sampleMean velocities else 0) := by
      by_cases h : sampleMean velocities > 0
      · simp only [h, if_true]
        exact div_nonneg (Real.sqrt_nonneg _) (le_of_lt h)
      · simp [h]
    have hmin : (0 : ℝ) ≤ min 1
        ((if sampleMean velocities > 0
          then stdDevOf velocities / sampleMean velocities else 0) / 0.5) :=
      le_min (by norm_num) (by positivity)
    apply max_le (by norm_num)
    linarith

theorem calculateVelocityConsistencyB_mem (pts : List Point) :
    0 ≤ calculateVelocityConsistencyB pts ∧ calculateVelocityConsistencyB pts ≤ 1 := by
  unfold calculateVelocityConsistencyB
  by_cases h1 : pts.length < 10
  · simp [h1]
  · by_cases h2 : (velocitiesB pts).length < 5
    · simp [h1, h2]
    · simp only [h1, h2, if_false]
      exact consistencyScore_mem _

theorem calculateVelocityConsistencyE_mem (pts : List Point) :
    0 ≤ calculateVelocityConsistencyE pts ∧ calculateVelocityConsistencyE pts ≤ 1 := by
  unfold calculateVelocityConsistencyE
  by_cases h1 : pts.length < 10
  · simp [h1]
  · by_cases h2 : (velocitiesE pts).length < 5
    · simp [h1, h2]
    · simp only [h1, h2, if_false]
      exact consistencyScore_mem _

theorem calculateClickPattern_mem (clicks : List ClickEvent) :
    0 ≤ calculateClickPattern clicks ∧ calculateClickPattern clicks ≤ 1 := by
  unfold calculateClickPattern
  by_cases h1 : clicks.length < 5
  · simp [h1]
  · by_cases h2 : (clickIntervals clicks).length < 3
    · simp [h1, h2]
    · simp only [h1, h2, if_false]
      constructor
      · apply le_min (by norm_num)
        apply add_nonneg <;> (apply ite_nonneg) <;> norm_num
      · exact min_le_left _ _

theorem ite_nonneg (c : Prop) [Decidable c] (a b : ℝ) (ha : 0 ≤ a) (hb : 0 ≤ b) :
    0 ≤ if c then a else b := by
  split <;> assumption

theorem boost_mem {s : ℝ} (c : Prop) [Decidable c] (k : ℝ) (hk : 0 ≤ k)
    (h0 : 0 ≤ s) (h1 : s ≤ 1) :
    0 ≤ (if c then min 1 (s * k) else s) ∧ (if c then min 1 (s * k) else s) ≤ 1 := by
  split
  · exact ⟨le_min (by norm_num) (mul_nonneg h0 hk), min_le_left _ _⟩
  · exact ⟨h0, h1⟩

theorem suspiciousRatio_mem (pts : List Point) :
    0 ≤ suspiciousRatio pts ∧ suspiciousRatio pts ≤ 1 := by
  unfold suspiciousRatio
  by_cases htm : pts.length - 1 > 0
  · simp only [htm, if_true]
    have hcnt : (teleportEvents pts).length ≤ pts.length - 1 := by
      have h1 : (teleportEvents pts).length ≤ (pairsOf pts).length :=
        List.length_filterMap_le _ _
      have h2 : (pairsOf pts).length = min pts.length (pts.length - 1) := by
        unfold pairsOf
        simp [List.length_zip]
      omega
    constructor
    · positivity
    · rw [div_le_one (by exact_mod_cast htm)]
      exact_mod_cast hcnt
  · simp [htm]

theorem teleportScore_mem (pts : List Point) :
    0 ≤ teleportScore pts ∧ teleportScore pts ≤ 1 := by
  unfold teleportScore
  obtain ⟨hr0, hr1⟩ := suspiciousRatio_mem pts
  have hp : 0 ≤ (if criticalCount pts > 0
      then min 1 ((criticalCount pts : ℝ) * 0.3) else 0) ∧
      (if criticalCount pts > 0
       then min 1 ((criticalCount pts : ℝ) * 0.3) else 0) ≤ 1 := by
    split
    · exact ⟨le_min (by norm_num) (by positivity), min_le_left _ _⟩
    · norm_num
  set pen := (if criticalCount pts > 0
    then min 1 ((criticalCount pts : ℝ) * 0.3) else 0) with hpendef
  have h1 : 0 ≤ max (suspiciousRatio pts) pen ∧ max (suspiciousRatio pts) pen ≤ 1 :=
    ⟨le_trans hr0 (le_max_left _ _), max_le hr1 hp.2⟩
  have h2 := boost_mem (suspiciousRatio pts > 0.3) (1.5 : ℝ) (by norm_num) h1.1 h1.2
  exact boost_mem (suspiciousRatio pts > 0.5) (2 : ℝ) (by norm_num) h2.1 h2.2

theorem detectTeleportation_mem (pts : List Point) :
    0 ≤ (detectTeleportation pts).1 ∧ (detectTeleportation pts).1 ≤ 1 := by
  unfold detectTeleportation
  by_cases hlen : pts.length < 2
  · simp [hlen]
  · simp only [hlen, if_false]
    exact teleportScore_mem pts

theorem calculateMovementDensity_mem (pts : List Point) :
    0 ≤ calculateMovementDensity pts ∧ calculateMovementDensity pts ≤ 1 := by
  unfold calculateMovementDensity
  by_cases h1 : pts.length < 5
  · simp [h1]
  · simp only [h1, if_false]
    by_cases h2 : pathLength pts = 0
    · simp [h2]
    · have hpos : 0 < pathLength pts := by
        have : 0 ≤ pathLength pts := by
          unfold pathLength
          apply List.sum_nonneg
          intro a ha
          simp only [List.mem_map] at ha
          obtain ⟨pq, _, rfl⟩ := ha
          exact Real.sqrt_nonneg _
        rcases lt_or_eq_of_le this with h | h
        · exact h
        · exact absurd h.symm h2
      simp only [h2, if_false]
      split
      next hlt =>
        have hppp : 0 ≤ ((pts.length : ℝ) - 1) / pathLength pts := by
          have : (5 : ℝ) ≤ (pts.length : ℝ) := by
            have : 5 ≤ pts.length := by omega
            exact_mod_cast this
          apply div_nonneg (by linarith) (le_of_lt hpos)
        constructor
        · apply le_min (by norm_num)
          apply div_nonneg (by linarith) (by norm_num)
        · exact min_le_left _ _
      next hlt => norm_num

theorem boost_nonneg {x k : ℝ} (c : Prop) [Decidable c] (hk : 0 ≤ k) (hx : 0 ≤ x) :
    0 ≤ (if c then min 1 (x * k) else x) := by
  split
  · exact le_min (by norm_num) (mul_nonneg hx hk)
  · exact hx

theorem boost_le_one_of_le {x k : ℝ} (c : Prop) [Decidable c] (hx : x ≤ 1) :
    (if c then min 1 (x * k) else x) ≤ 1 := by
  split
  · exact min_le_left _ _
  · exact hx

theorem boostedE_mem (mode : Mode) {s v c tel dens : ℝ}
    (hs : 0 ≤ s ∧ s ≤ 1) (hv : 0 ≤ v ∧ v ≤ 1) (hc : 0 ≤ c ∧ c ≤ 1)
    (htel : 0 ≤ tel ∧ tel ≤ 1) (hdens : 0 ≤ dens ∧ dens ≤ 1) :
    0 ≤ boostedE mode s v c tel dens ∧ boostedE mode s v c tel dens ≤ 1 := by
  have hraw0 : 0 ≤ rawScoreE mode s v c tel dens := by
    unfold rawScoreE
    cases mode
    · nlinarith [hs.1, hv.1, htel.1, hdens.1]
    · exact hc.1
    · nlinarith [hs.1, hv.1, hc.1, htel.1, hdens.1]
  have h1 : 0 ≤ telBoost1 tel (rawScoreE mode s v c tel dens) :=
    boost_nonneg _ (by norm_num) hraw0
  have h2 : 0 ≤ telBoost2 tel (telBoost1 tel (rawScoreE mode s v c tel dens)) :=
    boost_nonneg _ (by norm_num) h1
  have h3 : 0 ≤ densBoost dens (telBoost2 tel (telBoost1 tel
      (rawScoreE mode s v c tel dens))) :=
    boost_nonneg _ (by norm_num) h2
  have h4 : 0 ≤ comboBoost tel dens (densBoost dens (telBoost2 tel (telBoost1 tel
      (rawScoreE mode s v c tel dens)))) :=
    boost_nonneg _ (by norm_num) h3
  have h5 : 0 ≤ boostedE mode s v c tel dens := by
    unfold boostedE metricBoost
    exact boost_nonneg _ (by norm_num) h4
  refine ⟨h5, ?_⟩
  unfold boostedE metricBoost
  by_cases c5 : s > 0.8 ∨ v > 0.9 ∨ c > 0.7
  · rw [if_pos c5]
    exact min_le_left _ _
  · rw [if_neg c5]
    unfold comboBoost
    by_cases c4 : tel > 0.4 ∧ dens > 0.4
    · rw [if_pos c4]
      exact min_le_left _ _
    · rw [if_neg c4]
      unfold densBoost
      by_cases c3 : dens > 0.5
      · rw [if_pos c3]
        exact min_le_left _ _
      · rw [if_neg c3]
        unfold telBoost2
        by_cases c2 : tel > 0.6
        · rw [if_pos c2]
          exact min_le_left _ _
        · rw [if_neg c2]
          unfold telBoost1
          by_cases c1 : tel > 0.3
          · rw [if_pos c1]
            exact min_le_left _ _
          · rw [if_neg c1]
            push_neg at c5 c4 c3 c2 c1
            unfold rawScoreE
            cases mode
            · nlinarith [hs.1, hv.1, htel.1, hdens.1, c5.1, c5.2.1, c1, c3]
            · linarith [c5.2.2]
            · nlinarith [hs.1, hv.1, hc.1, htel.1, hdens.1, c5.1, c5.2.1,
                c5.2.2, c1, c3]

theorem calculateBotScoreE_mem (mode : Mode) {s v c tel dens : ℝ}
    (hs : 0 ≤ s ∧ s ≤ 1) (hv : 0 ≤ v ∧ v ≤ 1) (hc : 0 ≤ c ∧ c ≤ 1)
    (htel : 0 ≤ tel ∧ tel ≤ 1) (hdens : 0 ≤ dens ∧ dens ≤ 1) :
    0 ≤ calculateBotScoreE mode s v c tel dens ∧
      calculateBotScoreE mode s v c tel dens ≤ 100 := by
  obtain ⟨h0, h1⟩ := boostedE_mem mode hs hv hc htel hdens
  unfold calculateBotScoreE
  exact jsRoundR_pct_mem h0 h1

theorem calculateBotScoreB_mem (mode : Mode) {s v c : ℝ}
    (hs : 0 ≤ s ∧ s ≤ 1) (hv : 0 ≤ v ∧ v ≤ 1) (hc : 0 ≤ c ∧ c ≤ 1) :
    0 ≤ calculateBotScoreB mode s v c ∧ calculateBotScoreB mode s v c ≤ 100 := by
  have hraw : 0 ≤ rawScoreB mode s v c ∧ rawScoreB mode s v c ≤ 1 := by
    unfold rawScoreB
    cases mode
    · constructor
      · nlinarith [hs.1, hv.1]
      · nlinarith [hs.2, hv.2, hs.1, hv.1]
    · exact hc
    · constructor
      · nlinarith [hs.1, hv.1, hc.1]
      · nlinarith [hs.2, hv.2, hc.2, hs.1, hv.1, hc.1]
  have hb : 0 ≤ metricBoost s v c (rawScoreB mode s v c) ∧
      metricBoost s v c (rawScoreB mode s v c) ≤ 1 := by
    unfold metricBoost
    exact ⟨boost_nonneg _ (by norm_num) hraw.1, boost_le_one_of_le _ hraw.2⟩
  unfold calculateBotScoreB
  exact jsRoundR_pct_mem hb.1 hb.2

end Ptr

/-- C10: whenever the pointer analyzer runs with buffered data below the
mode-specific minimum counts (enhanced variant: movement < 5 points, clicks
< 5 clicks, combined < 10 points or < 3 clicks; basic variant: movement < 15
points), it returns with the previously published botScore, metrics and
teleportation-event list exactly unchanged. -/
theorem C10_analyzer_early_return :
    (∀ st : Ptr.StateE,
      (st.detectionMode = Ptr.Mode.movement ∧ st.points.length < 5) ∨
      (st.detectionMode = Ptr.Mode.clicks ∧ st.clicks.length < 5) ∨
      (st.detectionMode = Ptr.Mode.combined ∧
        (st.points.length < 10 ∨ st.clicks.length < 3)) →
      Ptr.analyzeAndUpdateScoreE st = st) ∧
    (∀ st : Ptr.StateB,
      (st.detectionMode = Ptr.Mode.movement ∧ st.points.length < 15) ∨
      (st.detectionMode = Ptr.Mode.clicks ∧ st.clicks.length < 5) ∨
      (st.detectionMode = Ptr.Mode.combined ∧
        (st.points.length < 10 ∨ st.clicks.length < 3)) →
      Ptr.analyzeAndUpdateScoreB st = st) := by
  constructor
  · intro st h
    rcases h with ⟨hm, hl⟩ | ⟨hm, hl⟩ | ⟨hm, hl⟩ <;>
      simp [Ptr.analyzeAndUpdateScoreE, hm, hl]
  · intro st h
    rcases h with ⟨hm, hl⟩ | ⟨hm, hl⟩ | ⟨hm, hl⟩ <;>
      simp [Ptr.analyzeAndUpdateScoreB, hm, hl]

/-- C10 witness: a concrete enhanced-tracker state in movement mode with 0
buffered points and a stale bot score of 42 is returned unchanged, and a
concrete basic-tracker state in movement mode with 14 points' worth of empty
buffer is returned unchanged. -/
theorem C10_analyzer_early_return_witness :
    Ptr.analyzeAndUpdateScoreE
        ⟨[], [], Ptr.Mode.movement, 42, ⟨0.5, 0.5, 0.5, 0.5, 0.5⟩, []⟩ =
      ⟨[], [], Ptr.Mode.movement, 42, ⟨0.5, 0.5, 0.5, 0.5, 0.5⟩, []⟩ ∧
    Ptr.analyzeAndUpdateScoreB ⟨[], [], Ptr.Mode.clicks, 37, ⟨0, 0, 0⟩⟩ =
      ⟨[], [], Ptr.Mode.clicks, 37, ⟨0, 0, 0⟩⟩ := by
  constructor
  · exact C10_analyzer_early_return.1 _ (Or.inl ⟨rfl, by simp⟩)
  · exact C10_analyzer_early_return.2 _ (Or.inr (Or.inl ⟨rfl, by simp⟩))

namespace Ptr

open TypingPage

attribute [local instance] Classical.propDecidable

/-- Every critical jump raises the teleportation score to at least
min(1, 0.3 times the critical-jump count): the penalty floor survives the
ratio boosts. -/
theorem teleportScore_ge_critPenalty (pts : List Point)
    (hcrit : criticalCount pts > 0) :
    min 1 ((criticalCount pts : ℝ) * 0.3) ≤ teleportScore pts := by
  simp only [teleportScore]
  rw [if_pos hcrit]
  set pen := min 1 ((criticalCount pts : ℝ) * 0.3) with hpen
  have hp0 : 0 ≤ pen := le_min (by norm_num) (by positivity)
  have hp1 : pen ≤ 1 := min_le_left _ _
  set s1 := max (suspiciousRatio pts) pen with hs1def
  have hs1 : pen ≤ s1 := le_max_right _ _
  have hs10 : 0 ≤ s1 := le_trans hp0 (le_max_right _ _)
  set s2 := (if suspiciousRatio pts > 0.3 then min 1 (s1 * 1.5) else s1) with hs2def
  have hs2 : pen ≤ s2 := by
    rw [hs2def]
    split
    · exact le_min hp1 (by nlinarith)
    · exact hs1
  have hs20 : 0 ≤ s2 := le_trans hp0 hs2
  split
  · exact le_min hp1 (by nlinarith)
  · exact hs2

end Ptr

/-- C6: a consecutive pointer pair at most 1000 ms apart that jumps more than
500 px in under 50 ms is classified critical; pairs more than 1000 ms apart
are skipped; the concrete single 800 px jump in 10 ms yields exactly one
critical TeleportationEvent and teleportation score 1; every critical jump
keeps the score at or above min(1, 0.3 × critical count); and a teleportation
score of 1 alone drives the enhanced movement-mode bot score to 100 through
the critical-movement multiplier path (without it the weighted base would be
only 0.4). -/
theorem C6_teleportation_critical :
    (∀ p q : Ptr.Point, ¬ q.timestamp - p.timestamp > 1000 →
      Ptr.pointDist p q > 500 → q.timestamp - p.timestamp < 50 →
      Ptr.classifyPair p q = some Ptr.Severity.critical) ∧
    (∀ p q : Ptr.Point, q.timestamp - p.timestamp > 1000 →
      Ptr.classifyPair p q = none) ∧
    (Ptr.detectTeleportation [⟨0, 0, 0⟩, ⟨800, 0, 10⟩] =
      (1, [⟨⟨0, 0, 0⟩, ⟨800, 0, 10⟩, 800, 10, Ptr.Severity.critical⟩])) ∧
    (∀ pts : List Ptr.Point, ¬ pts.length < 2 → Ptr.criticalCount pts > 0 →
      min 1 ((Ptr.criticalCount pts : ℝ) * 0.3) ≤ (Ptr.detectTeleportation pts).1) ∧
    (Ptr.calculateBotScoreE Ptr.Mode.movement 0 0 0 1 0 = 100) := by
  classical
  have hdist : Ptr.pointDist ⟨0, 0, 0⟩ ⟨800, 0, 10⟩ = 800 := by
    have h : (((800 : ℝ) - 0) ^ 2 + ((0 : ℝ) - 0) ^ 2) = 800 ^ 2 := by norm_num
    rw [Ptr.pointDist]
    simp only
    rw [h, Real.sqrt_sq (by norm_num : (0 : ℝ) ≤ 800)]
  refine ⟨?_, ?_, ?_, ?_, ?_⟩
  · intro p q h1 h2 h3
    unfold Ptr.classifyPair
    simp only [if_neg h1]
    rw [if_pos ⟨h2, h3⟩]
  · intro p q h1
    unfold Ptr.classifyPair
    simp only [if_pos h1]
  · have hclass : Ptr.classifyPair ⟨0, 0, 0⟩ ⟨800, 0, 10⟩ =
        some Ptr.Severity.critical := by
      unfold Ptr.classifyPair
      rw [hdist]
      norm_num
    have hev : Ptr.teleportEvents [⟨0, 0, 0⟩, ⟨800, 0, 10⟩] =
        [⟨⟨0, 0, 0⟩, ⟨800, 0, 10⟩, 800, 10, Ptr.Severity.critical⟩] := by
      unfold Ptr.teleportEvents Ptr.pairsOf
      simp [hclass, hdist]
    have hcrit : Ptr.criticalCount [⟨0, 0, 0⟩, ⟨800, 0, 10⟩] = 1 := by
      unfold Ptr.criticalCount
      rw [hev]
      simp
    have hratio : Ptr.suspiciousRatio [⟨0, 0, 0⟩, ⟨800, 0, 10⟩] = 1 := by
      unfold Ptr.suspiciousRatio
      rw [hev]
      norm_num
    have hscore : Ptr.teleportScore [⟨0, 0, 0⟩, ⟨800, 0, 10⟩] = 1 := by
      unfold Ptr.teleportScore
      rw [hcrit, hratio]
      norm_num
    unfold Ptr.detectTeleportation
    rw [if_neg (by norm_num)]
    rw [hscore, hev]
  · intro pts hlen hcrit
    unfold Ptr.detectTeleportation
    rw [if_neg hlen]
    exact Ptr.teleportScore_ge_critPenalty pts hcrit
  · unfold Ptr.calculateBotScoreE Ptr.boostedE Ptr.metricBoost Ptr.comboBoost
      Ptr.densBoost Ptr.telBoost2 Ptr.telBoost1 Ptr.rawScoreE
    norm_num [jsRoundR]

/-- C6 witness: the 800 px / 10 ms pair is classified critical, a pair 2000 ms
apart is skipped, and on the concrete two-point trajectory the score honors
the critical-penalty floor. -/
theorem C6_teleportation_critical_witness :
    Ptr.classifyPair ⟨0, 0, 0⟩ ⟨800, 0, 10⟩ = some Ptr.Severity.critical ∧
    Ptr.classifyPair ⟨0, 0, 0⟩ ⟨0, 0, 2000⟩ = none ∧
    min 1 ((Ptr.criticalCount [⟨0, 0, 0⟩, ⟨800, 0, 10⟩] : ℝ) * 0.3) ≤
      (Ptr.detectTeleportation [⟨0, 0, 0⟩, ⟨800, 0, 10⟩]).1 := by
  classical
  have hdist : Ptr.pointDist ⟨0, 0, 0⟩ ⟨800, 0, 10⟩ = 800 := by
    have h : (((800 : ℝ) - 0) ^ 2 + ((0 : ℝ) - 0) ^ 2) = 800 ^ 2 := by norm_num
    rw [Ptr.pointDist]
    simp only
    rw [h, Real.sqrt_sq (by norm_num : (0 : ℝ) ≤ 800)]
  have hcrit : Ptr.criticalCount [⟨0, 0, 0⟩, ⟨800, 0, 10⟩] > 0 := by
    have hclass : Ptr.classifyPair ⟨0, 0, 0⟩ ⟨800, 0, 10⟩ =
        some Ptr.Severity.critical :=
      C6_teleportation_critical.1 _ _ (by norm_num) (by rw [hdist]; norm_num)
        (by norm_num)
    unfold Ptr.criticalCount Ptr.teleportEvents Ptr.pairsOf
    simp [hclass]
  exact ⟨C6_teleportation_critical.1 _ _ (by norm_num) (by rw [hdist]; norm_num)
      (by norm_num),
    C6_teleportation_critical.2.1 _ _ (by norm_num),
    C6_teleportation_critical.2.2.2.1 _ (by norm_num) hcrit⟩

theorem not_mem_append2 {x : String} {l1 l2 : List String}
    (h1 : x ∉ l1) (h2 : x ∉ l2) : x ∉ l1 ++ l2 :=
  fun h => (List.mem_append.mp h).elim h1 h2

theorem not_mem_ite_singleton {x s : String} (c : Prop) [Decidable c] (h : x ≠ s) :
    x ∉ (if c then [s] else ([] : List String)) := by
  split
  · simp [h]
  · simp

/-- C7: every derived metric short-circuits to 0 below its minimum sample
count (straightness < 10 points; velocity consistency < 10 points or < 5
qualifying velocities; click pattern < 5 clicks or < 3 filtered intervals;
movement density < 5 points; keystroke statistics 0 on empty sample sets,
with the unique-dwell rule unable to fire when there are no dwell samples),
the zero-total-distance case of movement density returns 1 without dividing,
and every metric is a total function with value in [0, 1]. -/
theorem C7_metric_short_circuits :
    (∀ pts : List Ptr.Point, pts.length < 10 → Ptr.calculateStraightness pts = 0) ∧
    (∀ pts : List Ptr.Point, pts.length < 10 →
      Ptr.calculateVelocityConsistencyE pts = 0) ∧
    (∀ pts : List Ptr.Point, (Ptr.velocitiesE pts).length < 5 →
      Ptr.calculateVelocityConsistencyE pts = 0) ∧
    (∀ cl : List Ptr.ClickEvent, cl.length < 5 → Ptr.calculateClickPattern cl = 0) ∧
    (∀ cl : List Ptr.ClickEvent, (Ptr.clickIntervals cl).length < 3 →
      Ptr.calculateClickPattern cl = 0) ∧
    (∀ pts : List Ptr.Point, pts.length < 5 → Ptr.calculateMovementDensity pts = 0) ∧
    (∀ pts : List Ptr.Point, ¬ pts.length < 5 → Ptr.pathLength pts = 0 →
      Ptr.calculateMovementDensity pts = 1) ∧
    (∀ data : TypingPage.KeystrokeData,
      (data.dwell_times.map Prod.snd).flatten = [] →
      (TypingPage.analyzeKeystrokePatterns data).metrics.avgDwellTime = 0 ∧
      (TypingPage.analyzeKeystrokePatterns data).metrics.dwellVariance = 0 ∧
      (TypingPage.analyzeKeystrokePatterns data).metrics.uniqueDwellTimes = 0 ∧
      (TypingPage.analyzeKeystrokePatterns data).metrics.dwellTimeRange = 0 ∧
      (TypingPage.analyzeKeystrokePatterns data).metrics.totalKeystrokes = 0 ∧
      "Limited dwell time variation" ∉ (TypingPage.analyzeKeystrokePatterns data).flags) ∧
    (∀ data : TypingPage.KeystrokeData,
      (data.flight_times.map Prod.snd).flatten = [] →
      (TypingPage.analyzeKeystrokePatterns data).metrics.avgFlightTime = 0 ∧
      (TypingPage.analyzeKeystrokePatterns data).metrics.flightVariance = 0 ∧
      (TypingPage.analyzeKeystrokePatterns data).metrics.flightTimeRange = 0) ∧
    (∀ pts : List Ptr.Point, ∀ cl : List Ptr.ClickEvent,
      (0 ≤ Ptr.calculateStraightness pts ∧ Ptr.calculateStraightness pts ≤ 1) ∧
      (0 ≤ Ptr.calculateVelocityConsistencyE pts ∧
        Ptr.calculateVelocityConsistencyE pts ≤ 1) ∧
      (0 ≤ Ptr.calculateClickPattern cl ∧ Ptr.calculateClickPattern cl ≤ 1) ∧
      (0 ≤ (Ptr.detectTeleportation pts).1 ∧ (Ptr.detectTeleportation pts).1 ≤ 1) ∧
      (0 ≤ Ptr.calculateMovementDensity pts ∧
        Ptr.calculateMovementDensity pts ≤ 1)) := by
  classical
  refine ⟨?_, ?_, ?_, ?_, ?_, ?_, ?_, ?_, ?_, ?_⟩
  · intro pts h
    simp [Ptr.calculateStraightness, h]
  · intro pts h
    simp [Ptr.calculateVelocityConsistencyE, h]
  · intro pts h
    unfold Ptr.calculateVelocityConsistencyE
    by_cases h10 : pts.length < 10
    · simp [h10]
    · simp [h10, h]
  · intro cl h
    simp [Ptr.calculateClickPattern, h]
  · intro cl h
    unfold Ptr.calculateClickPattern
    by_cases h5 : cl.length < 5
    · simp [h5]
    · simp [h5, h]
  · intro pts h
    simp [Ptr.calculateMovementDensity, h]
  · intro pts h5 hpl
    unfold Ptr.calculateMovementDensity
    simp [h5, hpl]
  · intro data hde
    have hne1 : ("Limited dwell time variation" : String) ≠
        "Extremely consistent dwell times" := by decide
    have hne2 : ("Limited dwell time variation" : String) ≠
        "Unrealistically fast typing" := by decide
    have hne3 : ("Limited dwell time variation" : String) ≠
        "Highly consistent flight times" := by decide
    have hne5 : ("Limited dwell time variation" : String) ≠
        "Narrow dwell time range" := by decide
    have hne6 : ("Limited dwell time variation" : String) ≠
        "Highly consistent n-gram timing" := by decide
    have hne7 : ("Limited dwell time variation" : String) ≠
        "Good variation in timing (human-like)" := by decide
    refine ⟨?_, ?_, ?_, ?_, ?_, ?_⟩
    · simp only [TypingPage.analyzeKeystrokePatterns, hde, List.length_nil,
        gt_iff_lt, lt_self_iff_false, if_false]
      split <;> rfl
    · simp only [TypingPage.analyzeKeystrokePatterns, hde, List.length_nil,
        gt_iff_lt, lt_self_iff_false, if_false]
      split <;> rfl
    · simp only [TypingPage.analyzeKeystrokePatterns, hde, List.length_nil,
        gt_iff_lt, lt_self_iff_false, if_false]
      split <;> rfl
    · simp only [TypingPage.analyzeKeystrokePatterns, hde, List.length_nil,
        gt_iff_lt, lt_self_iff_false, if_false]
      split <;> rfl
    · simp only [TypingPage.analyzeKeystrokePatterns, hde, List.length_nil,
        gt_iff_lt, lt_self_iff_false, if_false]
      split <;> rfl
    · rw [(TypingPage.analyze_eq_spec data).2]
      simp only [TypingPage.specKeystrokeFlags]
      rw [hde]
      refine not_mem_append2 (not_mem_append2 (not_mem_append2 (not_mem_append2
        (not_mem_append2 (not_mem_append2 (not_mem_ite_singleton _ hne1)
          (not_mem_ite_singleton _ hne2)) (not_mem_ite_singleton _ hne3)) ?_)
        (not_mem_ite_singleton _ hne5)) (not_mem_ite_singleton _ hne6))
        (not_mem_ite_singleton _ hne7)
      rw [if_neg]
      · simp
      · rintro ⟨h1, h2⟩
        simp at h2
  · intro data hfe
    refine ⟨?_, ?_, ?_⟩ <;>
      (simp only [TypingPage.analyzeKeystrokePatterns, hfe, List.length_nil,
        gt_iff_lt, lt_self_iff_false, if_false]
       split <;> rfl)
  · intro pts cl
    exact ⟨Ptr.calculateStraightness_mem pts, Ptr.calculateVelocityConsistencyE_mem pts,
      Ptr.calculateClickPattern_mem cl, Ptr.detectTeleportation_mem pts,
      Ptr.calculateMovementDensity_mem pts⟩

/-- C7 witness: the short-circuits evaluated at concrete inputs — empty
trajectory, empty click list, a five-point stationary trajectory (total
distance 0, density 1 without dividing), and an empty keystroke data record
(zero statistics, unique-dwell rule cannot fire). -/
theorem C7_metric_short_circuits_witness :
    Ptr.calculateStraightness [] = 0 ∧
    Ptr.calculateClickPattern [] = 0 ∧
    Ptr.calculateMovementDensity [] = 0 ∧
    Ptr.calculateMovementDensity
      [⟨3, 4, 7⟩, ⟨3, 4, 8⟩, ⟨3, 4, 9⟩, ⟨3, 4, 10⟩, ⟨3, 4, 11⟩] = 1 ∧
    (TypingPage.analyzeKeystrokePatterns ⟨[], [], []⟩).metrics.totalKeystrokes = 0 ∧
    "Limited dwell time variation" ∉
      (TypingPage.analyzeKeystrokePatterns ⟨[], [], []⟩).flags := by
  have hpath : Ptr.pathLength
      [⟨3, 4, 7⟩, ⟨3, 4, 8⟩, ⟨3, 4, 9⟩, ⟨3, 4, 10⟩, ⟨3, 4, 11⟩] = 0 := by
    unfold Ptr.pathLength Ptr.pairsOf Ptr.pointDist
    norm_num
  refine ⟨C7_metric_short_circuits.1 [] (by simp),
    C7_metric_short_circuits.2.2.2.1 [] (by simp),
    C7_metric_short_circuits.2.2.2.2.2.1 [] (by simp),
    C7_metric_short_circuits.2.2.2.2.2.2.1 _ (by simp) hpath,
    (C7_metric_short_circuits.2.2.2.2.2.2.2.1 ⟨[], [], []⟩ rfl).2.2.2.2.1,
    (C7_metric_short_circuits.2.2.2.2.2.2.2.1 ⟨[], [], []⟩ rfl).2.2.2.2.2⟩

namespace Trust

theorem pushShift_subset (l : List ℚ) (x : ℚ) :
    ∀ y ∈ pushShift l x, y ∈ l ++ [x] := by
  intro y hy
  simp only [pushShift] at hy
  split at hy
  · exact List.tail_subset _ hy
  · exact hy

theorem pushShift_eq_lastN (l : List ℚ) (x : ℚ) (h : l.length ≤ 10) :
    pushShift l x = lastN 10 (l ++ [x]) := by
  simp only [pushShift, lastN, List.length_append, List.length_singleton]
  by_cases hl : l.length + 1 > 10
  · have h10 : l.length = 10 := by omega
    simp only [hl, if_pos, h10]
    norm_num [List.drop_one]
  · have h0 : l.length + 1 - 10 = 0 := by omega
    simp only [hl, if_neg, not_false_iff, h0, List.drop_zero]

theorem calculateDeviceTrust_mem (fp : Option StoredFingerprint) :
    0 ≤ calculateDeviceTrust fp ∧ calculateDeviceTrust fp ≤ 100 := by
  cases fp with
  | none => norm_num [calculateDeviceTrust]
  | some f =>
    simp only [calculateDeviceTrust]
    refine ⟨le_max_left _ _, max_le (by norm_num) (min_le_left _ _)⟩

theorem calculateBotDetectionTrust_mem (ctx : BotCtx) :
    0 ≤ (calculateBotDetectionTrust ctx).1 ∧
      (calculateBotDetectionTrust ctx).1 ≤ 90 := by
  cases ctx with
  | noDetector => norm_num [calculateBotDetectionTrust]
  | throws => norm_num [calculateBotDetectionTrust]
  | ok result =>
    obtain ⟨bot, tool, sb⟩ := result
    cases bot <;> cases tool <;> cases sb <;>
      norm_num [calculateBotDetectionTrust]

theorem avg_mem {l : List ℚ} (hlen : 0 < l.length)
    (h : ∀ x ∈ l, 0 ≤ x ∧ x ≤ 100) :
    0 ≤ l.sum / (l.length : ℚ) ∧ l.sum / (l.length : ℚ) ≤ 100 := by
  have hpos : (0 : ℚ) < (l.length : ℚ) := by exact_mod_cast hlen
  constructor
  · exact div_nonneg (List.sum_nonneg fun x hx => (h x hx).1) hpos.le
  · rw [div_le_iff₀ hpos]
    calc l.sum ≤ l.length • (100 : ℚ) :=
          List.sum_le_card_nsmul l 100 fun x hx => (h x hx).2
    _ = 100 * l.length := by rw [nsmul_eq_mul]; ring

theorem calculateConsistencyTrust_mem (store : HistoryStore) (h : HistOk store) :
    0 ≤ calculateConsistencyTrust store ∧
      calculateConsistencyTrust store ≤ 100 := by
  cases store with
  | absent => norm_num [calculateConsistencyTrust]
  | malformed => norm_num [calculateConsistencyTrust]
  | ok history =>
    simp only [calculateConsistencyTrust]
    by_cases hlen : (lastN 5 history).length < 2
    · simp only [hlen, if_pos]; norm_num
    · simp only [hlen, if_neg, not_false_iff]
      have hmem : ∀ x ∈ lastN 5 history, 0 ≤ x ∧ x ≤ 100 := by
        intro x hx
        exact h x (List.drop_subset _ _ hx)
      have havg := avg_mem (by omega) hmem
      set avg := (lastN 5 history).sum / ((lastN 5 history).length : ℚ) with ha
      split
      · exact ⟨le_min (by norm_num) (by linarith [havg.1]), min_le_left _ _⟩
      · split
        · exact ⟨le_max_left _ _, max_le (by norm_num) (by linarith [havg.2])⟩
        · exact havg

theorem jsRoundQ_mem {q : ℚ} (h0 : 0 ≤ q) (h1 : q ≤ 100) :
    0 ≤ jsRoundQ q ∧ jsRoundQ q ≤ 100 := by
  unfold jsRoundQ
  constructor
  · exact Int.le_floor.mpr (by push_cast; linarith)
  · have : (⌊q + 1/2⌋ : ℤ) < 101 := Int.floor_lt.mpr (by push_cast; linarith)
    omega

theorem overall_weighted_mem {d b c : ℚ} (hd : 0 ≤ d ∧ d ≤ 100)
    (hb : 0 ≤ b ∧ b ≤ 90) (hc : 0 ≤ c ∧ c ≤ 100) :
    0 ≤ jsRoundQ (d * (50 / 100) + b * (40 / 100) + c * (10 / 100)) ∧
      jsRoundQ (d * (50 / 100) + b * (40 / 100) + c * (10 / 100)) ≤ 100 := by
  apply jsRoundQ_mem
  · nlinarith [hd.1, hb.1, hc.1]
  · nlinarith [hd.2, hb.2, hc.2]

end Trust

/-- C9: the fingerprint hash ignores the volatile audio, network and
performance sections — two fingerprints equal on the remaining sections
hash identically. -/
theorem C9_fingerprint_hash_stable (fp1 fp2 : Device.PartialFingerprint)
    (hb : fp1.basic = fp2.basic) (hs : fp1.screen = fp2.screen)
    (hg : fp1.graphics = fp2.graphics) (hf : fp1.fonts = fp2.fonts)
    (hsen : fp1.sensors = fp2.sensors) (htz : fp1.timezone = fp2.timezone)
    (hpriv : fp1.privacy = fp2.privacy) :
    Device.generateFingerprintHash fp1 = Device.generateFingerprintHash fp2 := by
  obtain ⟨b1, s1, g1, a1, f1, n1, sen1, tz1, pf1, pr1⟩ := fp1
  obtain ⟨b2, s2, g2, a2, f2, n2, sen2, tz2, pf2, pr2⟩ := fp2
  simp only at hb hs hg hf hsen htz hpriv
  subst hb hs hg hf hsen htz hpriv
  rfl

theorem C9_fingerprint_hash_stable_witness :
    Device.generateFingerprintHash fpBase = Device.generateFingerprintHash fpVar :=
  C9_fingerprint_hash_stable fpBase fpVar rfl rfl rfl rfl rfl rfl rfl

/-- C8 counterexample: with no fingerprint, an uninitialised bot detector
and no stored history, every component falls back to 50 but not one
descriptive factor string is recorded — `riskFactors` is empty. -/
theorem C8_counterexample_silent_fallback :
    Trust.calculateDeviceTrust none = 50 ∧
      Trust.calculateBotDetectionTrust .noDetector = (50, []) ∧
      Trust.calculateConsistencyTrust .absent = 50 ∧
      (Trust.refreshTrustScore none .noDetector .absent).1.riskFactors = [] := by
  refine ⟨rfl, rfl, rfl, ?_⟩
  norm_num [Trust.refreshTrustScore, Trust.calculateDeviceTrust,
    Trust.calculateBotDetectionTrust, Trust.calculateConsistencyTrust]

/-- C8 (amended): the fused score is round(0.5·device + 0.4·bot +
0.1·consistency); every unavailable component falls back to 50, but a
descriptive factor string is recorded only when BotD detection throws
(the uninitialised-detector and history fallbacks are silent); the
well-formed history is appended and capped at the last 10 values, and a
malformed slot is left unchanged. -/
theorem C8_trust_fusion (fp : Option Trust.StoredFingerprint)
    (ctx : Trust.BotCtx) (store : Trust.HistoryStore) :
    (Trust.refreshTrustScore fp ctx store).1.overall =
      jsRoundQ (Trust.calculateDeviceTrust fp * (50 / 100) +
        (Trust.calculateBotDetectionTrust ctx).1 * (40 / 100) +
        Trust.calculateConsistencyTrust store * (10 / 100)) ∧
    Trust.calculateDeviceTrust none = 50 ∧
    Trust.calculateBotDetectionTrust .noDetector = (50, []) ∧
    Trust.calculateBotDetectionTrust .throws = (50, ["BotD analysis failed"]) ∧
    Trust.calculateConsistencyTrust .absent = 50 ∧
    Trust.calculateConsistencyTrust .malformed = 50 ∧
    (∀ l : List ℚ, l.length < 2 → Trust.calculateConsistencyTrust (.ok l) = 50) ∧
    (∀ l : List ℚ, l.length ≤ 10 →
      (Trust.refreshTrustScore fp ctx (.ok l)).2 =
        .ok (lastN 10 (l ++
          [((Trust.refreshTrustScore fp ctx (.ok l)).1.overall : ℚ)]))) ∧
    (Trust.refreshTrustScore fp ctx .malformed).2 = .malformed := by
  refine ⟨rfl, rfl, rfl, rfl, rfl, rfl, ?_, ?_, rfl⟩
  · intro l hl
    have : (lastN 5 l).length < 2 := by
      rw [lastN_length]; omega
    simp only [Trust.calculateConsistencyTrust, this, if_pos]
  · intro l hl
    simp only [Trust.refreshTrustScore]
    rw [Trust.pushShift_eq_lastN _ _ hl]

theorem C8_trust_fusion_witness :
    Trust.calculateConsistencyTrust (.ok [7]) = 50 ∧
    (Trust.refreshTrustScore none .noDetector (.ok [1, 2])).2 =
      .ok (lastN 10 ([1, 2] ++
        [((Trust.refreshTrustScore none .noDetector (.ok [1, 2])).1.overall : ℚ)])) :=
  ⟨(C8_trust_fusion none .noDetector .absent).2.2.2.2.2.2.1 [7] (by norm_num),
   (C8_trust_fusion none .noDetector (.ok [1, 2])).2.2.2.2.2.2.2.1 [1, 2]
     (by norm_num)⟩

namespace TypingPage

attribute [local instance] Classical.propDecidable

/-! ## C2: global score-range invariants -/
theorem specBotScore_mem (data : KeystrokeData) :
    0 ≤ specKeystrokeBotScore data ∧ specKeystrokeBotScore data ≤ 100 := by
  simp only [specKeystrokeBotScore]
  refine ⟨le_min ?_ (by norm_num), min_le_right _ _⟩
  split
  · exact le_max_left _ _
  · repeat' apply add_nonneg
    all_goals exact Ptr.ite_nonneg _ _ _ (by norm_num) (by norm_num)

theorem botScore_mem (data : KeystrokeData) :
    0 ≤ (analyzeKeystrokePatterns data).botScore ∧
      (analyzeKeystrokePatterns data).botScore ≤ 100 := by
  rw [(analyze_eq_spec data).1]
  exact specBotScore_mem data

end TypingPage

namespace Ptr

open TypingPage

attribute [local instance] Classical.propDecidable

theorem ite_mem01 (c : Prop) [Decidable c] {x : ℝ} (hx : 0 ≤ x ∧ x ≤ 1) :
    0 ≤ (if c then x else 0) ∧ (if c then x else 0) ≤ 1 := by
  split
  · exact hx
  · norm_num

theorem updateB_botScore_mem (st : StateB) (h0 : 0 ≤ st.botScore)
    (h1 : st.botScore ≤ 100) :
    0 ≤ (analyzeAndUpdateScoreB st).botScore ∧
      (analyzeAndUpdateScoreB st).botScore ≤ 100 := by
  unfold analyzeAndUpdateScoreB
  split
  · exact ⟨h0, h1⟩
  split
  · exact ⟨h0, h1⟩
  split
  · exact ⟨h0, h1⟩
  exact calculateBotScoreB_mem _ (ite_mem01 _ (calculateStraightness_mem _))
    (ite_mem01 _ (calculateVelocityConsistencyB_mem _))
    (ite_mem01 _ (calculateClickPattern_mem _))

theorem updateE_botScore_mem (st : StateE) (h0 : 0 ≤ st.botScore)
    (h1 : st.botScore ≤ 100) :
    0 ≤ (analyzeAndUpdateScoreE st).botScore ∧
      (analyzeAndUpdateScoreE st).botScore ≤ 100 := by
  unfold analyzeAndUpdateScoreE
  split
  · exact ⟨h0, h1⟩
  split
  · exact ⟨h0, h1⟩
  split
  · exact ⟨h0, h1⟩
  refine calculateBotScoreE_mem _ (ite_mem01 _ (calculateStraightness_mem _))
    (ite_mem01 _ (calculateVelocityConsistencyE_mem _))
    (ite_mem01 _ (calculateClickPattern_mem _)) ?_
    (ite_mem01 _ (calculateMovementDensity_mem _))
  split
  · exact detectTeleportation_mem _
  · norm_num

end Ptr

namespace Trust

theorem refresh_overall_mem (fp : Option StoredFingerprint) (ctx : BotCtx)
    (store : HistoryStore) (hstore : HistOk store) :
    0 ≤ (refreshTrustScore fp ctx store).1.overall ∧
      (refreshTrustScore fp ctx store).1.overall ≤ 100 :=
  overall_weighted_mem (calculateDeviceTrust_mem fp)
    (calculateBotDetectionTrust_mem ctx)
    (calculateConsistencyTrust_mem store hstore)

theorem refresh_preserves_histOk (fp : Option StoredFingerprint) (ctx : BotCtx)
    (store : HistoryStore) (hstore : HistOk store) :
    HistOk (refreshTrustScore fp ctx store).2 := by
  have hov := refresh_overall_mem fp ctx store hstore
  cases store with
  | malformed => trivial
  | absent =>
    intro x hx
    rcases List.mem_append.mp (pushShift_subset [] _ x hx) with h | h
    · exact absurd h (List.not_mem_nil x)
    · rw [List.mem_singleton] at h
      subst h
      exact ⟨by exact_mod_cast hov.1, by exact_mod_cast hov.2⟩
  | ok l =>
    intro x hx
    rcases List.mem_append.mp (pushShift_subset l _ x hx) with h | h
    · exact hstore x h
    · rw [List.mem_singleton] at h
      subst h
      exact ⟨by exact_mod_cast hov.1, by exact_mod_cast hov.2⟩

end Trust

/-- C2: every emitted score is in range on all inputs — the typing-checker
bot score and the pointer metrics (straightness, velocity consistency,
click pattern, teleportation, movement density, each in [0, 1]); both
tracker variants' analyzers keep the published bot score in [0, 100] in
every detection mode (including the enhanced movement mode whose raw
weights sum to 1.2 before the conditional caps); the device risk score is
capped at 100; and the trust components and fused overall score stay in
[0, 100], the history-range invariant being preserved by every refresh. -/
theorem C2_score_ranges :
    (∀ data : TypingPage.KeystrokeData,
      0 ≤ (TypingPage.analyzeKeystrokePatterns data).botScore ∧
        (TypingPage.analyzeKeystrokePatterns data).botScore ≤ 100) ∧
    (∀ pts : List Ptr.Point,
      0 ≤ Ptr.calculateStraightness pts ∧ Ptr.calculateStraightness pts ≤ 1) ∧
    (∀ pts : List Ptr.Point,
      0 ≤ Ptr.calculateVelocityConsistencyB pts ∧
        Ptr.calculateVelocityConsistencyB pts ≤ 1) ∧
    (∀ pts : List Ptr.Point,
      0 ≤ Ptr.calculateVelocityConsistencyE pts ∧
        Ptr.calculateVelocityConsistencyE pts ≤ 1) ∧
    (∀ clicks : List Ptr.ClickEvent,
      0 ≤ Ptr.calculateClickPattern clicks ∧
        Ptr.calculateClickPattern clicks ≤ 1) ∧
    (∀ pts : List Ptr.Point,
      0 ≤ (Ptr.detectTeleportation pts).1 ∧ (Ptr.detectTeleportation pts).1 ≤ 1) ∧
    (∀ pts : List Ptr.Point,
      0 ≤ Ptr.calculateMovementDensity pts ∧
        Ptr.calculateMovementDensity pts ≤ 1) ∧
    (∀ st : Ptr.StateB, 0 ≤ st.botScore → st.botScore ≤ 100 →
      0 ≤ (Ptr.analyzeAndUpdateScoreB st).botScore ∧
        (Ptr.analyzeAndUpdateScoreB st).botScore ≤ 100) ∧
    (∀ st : Ptr.StateE, 0 ≤ st.botScore → st.botScore ≤ 100 →
      0 ≤ (Ptr.analyzeAndUpdateScoreE st).botScore ∧
        (Ptr.analyzeAndUpdateScoreE st).botScore ≤ 100) ∧
    (∀ fp : Device.PartialFingerprint, (Device.calculateRiskScore fp).1 ≤ 100) ∧
    (∀ fp : Option Trust.StoredFingerprint,
      0 ≤ Trust.calculateDeviceTrust fp ∧ Trust.calculateDeviceTrust fp ≤ 100) ∧
    (∀ ctx : Trust.BotCtx,
      0 ≤ (Trust.calculateBotDetectionTrust ctx).1 ∧
        (Trust.calculateBotDetectionTrust ctx).1 ≤ 100) ∧
    (∀ (fp : Option Trust.StoredFingerprint) (ctx : Trust.BotCtx)
        (store : Trust.HistoryStore), Trust.HistOk store →
      (0 ≤ (Trust.refreshTrustScore fp ctx store).1.overall ∧
        (Trust.refreshTrustScore fp ctx store).1.overall ≤ 100) ∧
      Trust.HistOk (Trust.refreshTrustScore fp ctx store).2) := by
  refine ⟨TypingPage.botScore_mem, Ptr.calculateStraightness_mem,
    Ptr.calculateVelocityConsistencyB_mem, Ptr.calculateVelocityConsistencyE_mem,
    Ptr.calculateClickPattern_mem, Ptr.detectTeleportation_mem,
    Ptr.calculateMovementDensity_mem, Ptr.updateB_botScore_mem,
    Ptr.updateE_botScore_mem, fun fp => min_le_right _ _,
    Trust.calculateDeviceTrust_mem, ?_, ?_⟩
  · intro ctx
    have h := Trust.calculateBotDetectionTrust_mem ctx
    exact ⟨h.1, by linarith [h.2]⟩
  · intro fp ctx store hstore
    exact ⟨Trust.refresh_overall_mem fp ctx store hstore,
      Trust.refresh_preserves_histOk fp ctx store hstore⟩

/-- C2 witness: the analyzer bound at a concrete basic-tracker state and a
concrete enhanced-tracker state with stale score 0, and the trust refresh
bound at the concrete empty (well-formed) history. -/
theorem C2_score_ranges_witness :
    (0 ≤ (Ptr.analyzeAndUpdateScoreB
        ⟨[], [], Ptr.Mode.movement, 0, ⟨0, 0, 0⟩⟩).botScore ∧
      (Ptr.analyzeAndUpdateScoreB
        ⟨[], [], Ptr.Mode.movement, 0, ⟨0, 0, 0⟩⟩).botScore ≤ 100) ∧
    (0 ≤ (Ptr.analyzeAndUpdateScoreE
        ⟨[], [], Ptr.Mode.movement, 0, ⟨0, 0, 0, 0, 0⟩, []⟩).botScore ∧
      (Ptr.analyzeAndUpdateScoreE
        ⟨[], [], Ptr.Mode.movement, 0, ⟨0, 0, 0, 0, 0⟩, []⟩).botScore ≤ 100) ∧
    ((0 ≤ (Trust.refreshTrustScore none .noDetector (.ok [])).1.overall ∧
      (Trust.refreshTrustScore none .noDetector (.ok [])).1.overall ≤ 100) ∧
      Trust.HistOk (Trust.refreshTrustScore none .noDetector (.ok [])).2) :=
  ⟨C2_score_ranges.2.2.2.2.2.2.2.1 _ (by norm_num) (by norm_num),
   C2_score_ranges.2.2.2.2.2.2.2.2.1 _ (by norm_num) (by norm_num),
   C2_score_ranges.2.2.2.2.2.2.2.2.2.2.2.2 none .noDetector (.ok [])
     (fun x hx => absurd hx (List.not_mem_nil x))⟩
